import Mathlib

/-!
# Corsair RMi/HXi read-out program (`corsairmi.c`): embedding and properties

The C program talks to a power supply over a hidraw device node.  Every
exchange writes one 65-byte report and reads one 64-byte report; numeric
registers hold a 16-bit word with a 5-bit exponent and an 11-bit mantissa.

The embedding follows the source function by function.  Machine integers are
`Nat`/`Int` with explicit reductions, bytes are `Fin 256`, the process is a
state-passing computation over a `World` (device state, system-call trace,
standard output, standard error) that either returns or ends in `exit`.
-/

namespace Corsairmi

/-! ## Value decoder (`mkv`) -/

/-- Conversion of a value to `uint16_t`. -/
def toUInt16 (n : Nat) : Nat := n % 65536

/-- The cast `(int16_t)x` of a 16-bit value, as a mathematical integer. -/
def toInt16 (n : Nat) : Int :=
  if n % 65536 < 32768 then ((n % 65536 : Nat) : Int) else ((n % 65536 : Nat) : Int) - 65536

/-- Reduction of a mathematical integer to a 32-bit two's-complement `int`. -/
def wrapInt32 (z : Int) : Int :=
  if z % 4294967296 < 2147483648 then z % 4294967296 else z % 4294967296 - 4294967296

/-- The shift `x << k` on a 32-bit `int`. -/
def shl32 (x : Int) (k : Nat) : Int := wrapInt32 (x * 2 ^ k)

/-- The shift `x >> k` on a 32-bit `int` (arithmetic shift). -/
def sar32 (x : Int) (k : Nat) : Int := x >>> k

/-- The local `p` of `mkv`: `(int)(int16_t)v16 >> 11`. -/
def mkv_p (v16 : Nat) : Int := sar32 (toInt16 (toUInt16 v16)) 11

/-- The local `v` of `mkv`: `((int)v16 << 21) >> 21`. -/
def mkv_v (v16 : Nat) : Int := sar32 (shl32 ((toUInt16 v16 : Nat) : Int) 21) 21

/-- The function `mkv`: `(double)v * pow(2.0, p)`, in exact rational arithmetic.
The argument is converted to `uint16_t` on entry. -/
def mkv (v16 : Nat) : ℚ := (mkv_v v16 : ℚ) * (2 : ℚ) ^ (mkv_p v16)

/-- The exponent field as the specification words it: the high 5 bits of the
word (bits 15..11) read as a two's-complement integer. -/
def specExponent (w : Nat) : Int :=
  if w / 2048 % 32 < 16 then ((w / 2048 % 32 : Nat) : Int) else ((w / 2048 % 32 : Nat) : Int) - 32

/-- The mantissa field as the specification words it: the low 11 bits of the
word (bits 10..0) read as a two's-complement integer. -/
def specMantissa (w : Nat) : Int :=
  if w % 2048 < 1024 then ((w % 2048 : Nat) : Int) else ((w % 2048 : Nat) : Int) - 2048

/-- The 16-bit layout of a (mantissa, exponent) pair, as the specification
words it: `((e mod 32) << 11) | (m mod 2048)`. -/
def specEncode (m e : Int) : Nat := (((e % 32).toNat <<< 11) ||| (m % 2048).toNat)

/-! ## Process model -/

/-- A `uint8_t`. -/
abbrev Byte := Fin 256

/-- Host byte order: how the bytes of a `uint16_t`/`uint32_t` object are laid
out in memory. -/
inductive Endian where
  | little
  | big
deriving DecidableEq, Repr

/-- System calls made by the program, with the value each returned. -/
inductive Syscall where
  | open (name : String) (ret : Int)
  | ioctl (fd : Int) (ret : Int)
  | write (fd : Int) (buf : List Byte) (ret : Int)
  | read (fd : Int) (count : Nat) (ret : Int)
  | close (fd : Int)
deriving DecidableEq, Repr

/-- Items printed on standard output. -/
inductive Out where
  | line (text : String)
  | hexdump (bytes : List Byte)
  | info (name vendor product : List Byte)
  | counter (metric : String) (v : Nat)
  | gauge (metric : String) (v : ℚ)
  | rail (metric : String) (osel : Nat) (v : ℚ)
deriving DecidableEq

/-- Messages printed on standard error. -/
inductive Diag where
  | shortWrite (ret : Int) (want : Nat)
  | shortRead (ret : Int) (want : Nat)
  | unexpectedResponse (r0 r1 b0 b1 b2 : Byte)
  | openFailed (name : String)
  | rawinfoFailed
  | unexpectedDevice (vendor product : Int)
  | usage
  | noDevices
  | noPermission
deriving DecidableEq, Repr

/-- The device behind the file descriptor: what `write` and `read` on it
return.  `write` gets the buffer and returns the byte count; `read` returns
the byte count and the bytes stored into the buffer. -/
structure Transport (σ : Type) where
  write : σ → List Byte → Int × σ
  read : σ → Nat → Int × List Byte × σ

/-- State of the running process and its environment. -/
structure World (σ : Type) where
  dev : σ
  trace : List Syscall
  out : List Out
  err : List Diag

/-- Result of running a piece of the program: it returns a value, or the
process has ended in `exit(status)`. -/
inductive Res (σ α : Type) where
  | ok (a : α) (w : World σ)
  | exit (status : Int) (w : World σ)

/-- The world at the end of a run. -/
def Res.world {σ α : Type} : Res σ α → World σ
  | .ok _ w => w
  | .exit _ w => w

/-- A piece of the program, run from a given world. -/
def Proc (σ α : Type) : Type := World σ → Res σ α

/-- Sequencing: the second part runs only when the first one returned. -/
def Proc.bind {σ α β : Type} (m : Proc σ α) (f : α → Proc σ β) : Proc σ β := fun w =>
  match m w with
  | .ok a w1 => f a w1
  | .exit s w1 => .exit s w1

instance {σ : Type} : Monad (Proc σ) where
  pure a := fun w => .ok a w
  bind := Proc.bind

/-- Append items to standard output (`printf`, `puts`). -/
def emit {σ : Type} (o : List Out) : Proc σ Unit := fun w =>
  .ok () { w with out := w.out ++ o }

/-- Append a message to standard error (`fprintf(stderr, ...)`, `perror`). -/
def complain {σ : Type} (d : Diag) : Proc σ Unit := fun w =>
  .ok () { w with err := w.err ++ [d] }

/-- The call `exit(status)`. -/
def exit {σ α : Type} (status : Int) : Proc σ α := fun w => .exit status w

/-- The call `write(fd, buf, sizeof buf)`. -/
def sys_write {σ : Type} (T : Transport σ) (fd : Int) (buf : List Byte) : Proc σ Int := fun w =>
  let r := T.write w.dev buf
  .ok r.1 { w with dev := r.2, trace := w.trace ++ [Syscall.write fd buf r.1] }

/-- The call `read(fd, buf, count)`: returns the count and the bytes stored. -/
def sys_read {σ : Type} (T : Transport σ) (fd : Int) (count : Nat) :
    Proc σ (Int × List Byte) := fun w =>
  let r := T.read w.dev count
  .ok (r.1, r.2.1) { w with dev := r.2.2, trace := w.trace ++ [Syscall.read fd count r.1] }

/-- The call `close(fd)`. -/
def sys_close {σ : Type} (fd : Int) : Proc σ Unit := fun w =>
  .ok () { w with trace := w.trace ++ [Syscall.close fd] }

/-! ## Transport and framing (`send_recv_cmd`) -/

/-- The call `memcpy(dst, src, n)`: the first `n` bytes of `dst` become the
first `n` bytes of `src`. -/
def memcpy (dst src : List Byte) (n : Nat) : List Byte := src.take n ++ dst.drop n

/-- A local array of `n` bytes after `data` was stored at its start; bytes not
stored read as 0. -/
def stored (n : Nat) (data : List Byte) : List Byte := (data ++ List.replicate n 0).take n

/-- The request buffer `buf_w`: `memset` to 0, then bytes 1..3 set. -/
def request (b0 b1 b2 : Byte) : List Byte :=
  (((List.replicate 65 (0 : Byte)).set 1 b0).set 2 b1).set 3 b2

/-- The function `dump`, with the bytes it prints: the first `size` bytes of `buf`. -/
def dump {σ : Type} (buf : List Byte) (size : Nat) : Proc σ Unit :=
  emit [Out.hexdump (buf.take size)]

/-- The last statement of `send_recv_cmd` (`if (buf != NULL && buf_size > 0)`):
the caller's buffer after it, for the response `buf_r`. -/
def payload (buf : Option (List Byte)) (buf_size : Nat) (buf_r : List Byte) :
    Option (List Byte) :=
  match buf with
  | some b =>
    if buf_size > 0 then
      let buf_size := if buf_size > 64 - 2 then 64 - 2 else buf_size
      some (memcpy b (buf_r.drop 2) buf_size)
    else
      some b
  | none => none

/-- The function `send_recv_cmd`.  `buf` is the caller's buffer (`none` for
`NULL`); the value returned is the caller's buffer after the call. -/
def send_recv_cmd {σ : Type} (T : Transport σ) (fd : Int) (b0 b1 b2 : Byte)
    (buf : Option (List Byte)) (buf_size : Nat) : Proc σ (Option (List Byte)) := do
  let buf_w := request b0 b1 b2
  let ret ← sys_write T fd buf_w
  if ret ≠ 65 then
    complain (Diag.shortWrite ret 65)
    exit 1
  else
    let (ret, data) ← sys_read T fd 64
    let buf_r := stored 64 data
    if ret ≠ 64 then
      complain (Diag.shortRead ret 64)
      if ret > 0 then
        dump buf_r ret.toNat
        exit 1
      else
        exit 1
    else if buf_r.getD 0 0 ≠ b0 ∨ buf_r.getD 1 0 ≠ b1 then
      complain (Diag.unexpectedResponse (buf_r.getD 0 0) (buf_r.getD 1 0) b0 b1 b2)
      dump buf_r 64
      exit 1
    else
      pure (payload buf buf_size buf_r)

/-! ## Register access -/

/-- Object representation of an unsigned integer of `n` bytes on the host. -/
def objBytes (e : Endian) (n : Nat) (v : Nat) : List Byte :=
  match e with
  | .little => (List.range n).map (fun i => (Fin.ofNat (v / 256 ^ i) : Byte))
  | .big => ((List.range n).map (fun i => (Fin.ofNat (v / 256 ^ i) : Byte))).reverse

/-- Value of an unsigned integer object with the given bytes on the host. -/
def objValue (e : Endian) (bs : List Byte) : Nat :=
  match e with
  | .little => bs.foldr (fun b acc => b.val + 256 * acc) 0
  | .big => bs.foldl (fun acc b => acc * 256 + b.val) 0

/-- The function `read_reg`. -/
def read_reg {σ : Type} (T : Transport σ) (fd : Int) (reg : Byte)
    (buf : Option (List Byte)) (buf_size : Nat) : Proc σ (Option (List Byte)) :=
  send_recv_cmd T fd 0x03 reg 0x00 buf buf_size

/-- The function `read_reg16`: `v` is the value of `*v` before the call, the
value returned is `*v` after it. -/
def read_reg16 {σ : Type} (T : Transport σ) (e : Endian) (fd : Int) (reg : Byte) (v : Nat) :
    Proc σ Nat := do
  let b ← send_recv_cmd T fd 0x03 reg 0x00 (some (objBytes e 2 v)) 2
  pure (objValue e (b.getD []))

/-- The function `read_reg32`: `v` is the value of `*v` before the call, the
value returned is `*v` after it. -/
def read_reg32 {σ : Type} (T : Transport σ) (e : Endian) (fd : Int) (reg : Byte) (v : Nat) :
    Proc σ Nat := do
  let b ← send_recv_cmd T fd 0x03 reg 0x00 (some (objBytes e 4 v)) 4
  pure (objValue e (b.getD []))

/-- The function `print_prometheus_reg` (`PROMETHEUS` is 1): `label` is the
formatted metric name, the value printed is `mkv(val)`.  The local `val` has
no initialiser; it is taken as 0 and overwritten by the read. -/
def print_prometheus_reg {σ : Type} (T : Transport σ) (e : Endian) (fd : Int) (reg : Byte)
    (label : String) : Proc σ Unit := do
  let val ← read_reg16 T e fd reg 0
  emit [Out.gauge label (mkv val)]

/-! ## Device matcher (`try_open_device`) -/

/-- The table `products`. -/
def products : List Int :=
  [0x1c0a, 0x1c0b, 0x1c0c, 0x1c0d, 0x1c04, 0x1c05, 0x1c06, 0x1c07, 0x1c08]

/-- What the system does for one device path: the value `open` returns (a
descriptor, or -1), the value the `HIDIOCGRAWINFO` request returns, the
identity it stores in `info` (as promoted to `int`), and the `errno` left. -/
structure Node where
  openRet : Int
  ioctlRet : Int
  vendor : Int
  product : Int
  errno : Int

/-- The call `open(name, O_RDWR)`. -/
def sys_open {σ : Type} (fs : String → Node) (name : String) : Proc σ Int := fun w =>
  .ok (fs name).openRet { w with trace := w.trace ++ [Syscall.open name (fs name).openRet] }

/-- The call `ioctl(fd, HIDIOCGRAWINFO, &info)` on the zeroed `info`: returns
the result and (vendor, product) of `info` after the call. -/
def sys_ioctl {σ : Type} (nd : Node) (fd : Int) : Proc σ (Int × Int × Int) := fun w =>
  .ok (nd.ioctlRet, if nd.ioctlRet = 0 then (nd.vendor, nd.product) else (0, 0))
    { w with trace := w.trace ++ [Syscall.ioctl fd nd.ioctlRet] }

/-- The product loop of `try_open_device`: scan the table from `i` on, stop at
the first equal entry. -/
def product_loop (product : Int) : List Int → Bool
  | [] => false
  | p :: rest => if product = p then true else product_loop product rest

/-- The function `try_open_device`. -/
def try_open_device {σ : Type} (fs : String → Node) (name : String) (report_errors : Bool) :
    Proc σ Int := do
  let fd ← sys_open fs name
  if fd = -1 then
    if report_errors then
      complain (Diag.openFailed name)
      pure (-1)
    else
      pure (-1)
  else
    let (ret, vendor, product) ← sys_ioctl (fs name) fd
    let found ←
      if ret ≠ 0 then do
        complain Diag.rawinfoFailed
        pure false
      else if vendor ≠ 0x1b1c then
        pure false
      else
        pure (product_loop product products)
    if !found then
      if report_errors then
        complain (Diag.unexpectedDevice vendor product)
        sys_close fd
        pure (-1)
      else
        sys_close fd
        pure (-1)
    else
      pure fd

/-! ## Telemetry pass (`dump_*`, `main`) -/

/-- What `printf("%s", s)` prints of a byte array: the bytes before the first 0. -/
def cstr (s : List Byte) : List Byte := s.takeWhile (fun b => b ≠ 0)

/-- The function `dump_names`. -/
def dump_names {σ : Type} (T : Transport σ) (fd : Int) : Proc σ Unit := do
  let name := List.replicate 64 (0 : Byte)
  let vendor := List.replicate 64 (0 : Byte)
  let product := List.replicate 64 (0 : Byte)
  let name ← send_recv_cmd T fd 0xfe 0x03 0x00 (some name) (64 - 1)
  let vendor ← read_reg T fd 0x99 (some vendor) (64 - 1)
  let product ← read_reg T fd 0x9a (some product) (64 - 1)
  emit [Out.line "# HELP corsair_hardware_info Hardware info",
        Out.line "# TYPE corsair_hardware_info gauge",
        Out.info (cstr (name.getD [])) (cstr (vendor.getD [])) (cstr (product.getD []))]

/-- The function `dump_times` (`PROMETHEUS` is 1).  The locals have no
initialiser; they are taken as 0 and overwritten by the reads. -/
def dump_times {σ : Type} (T : Transport σ) (e : Endian) (fd : Int) : Proc σ Unit := do
  let powered ← read_reg32 T e fd 0xd1 0
  let uptime ← read_reg32 T e fd 0xd2 0
  emit [Out.line "# HELP corsair_powered_seconds Global time powered in seconds",
        Out.line "# TYPE corsair_powered_seconds gauge",
        Out.counter "corsair_powered_seconds" powered,
        Out.line "# HELP corsair_uptime_seconds Current uptime in seconds",
        Out.line "# TYPE corsair_uptime_seconds gauge",
        Out.counter "corsair_uptime_seconds" uptime]

/-- The function `dump_temps` (`PROMETHEUS` is 1). -/
def dump_temps {σ : Type} (T : Transport σ) (e : Endian) (fd : Int) : Proc σ Unit := do
  emit [Out.line "# HELP corsair_temperature_celsius Temperature in seconds",
        Out.line "# TYPE corsair_temperature_celsius gauge"]
  print_prometheus_reg T e fd 0x8d "corsair_temperature_celsius\x7bsensor=\"1\"\x7d"
  print_prometheus_reg T e fd 0x8e "corsair_temperature_celsius\x7bsensor=\"2\"\x7d"

/-- The function `dump_fan` (`PROMETHEUS` is 1). -/
def dump_fan {σ : Type} (T : Transport σ) (e : Endian) (fd : Int) : Proc σ Unit := do
  emit [Out.line "# HELP corsair_fan_rpm Fan speed",
        Out.line "# TYPE corsair_fan_rpm gauge"]
  print_prometheus_reg T e fd 0x8d "corsair_fan_rpm"

/-- The function `dump_global_power` (`PROMETHEUS` is 1). -/
def dump_global_power {σ : Type} (T : Transport σ) (e : Endian) (fd : Int) : Proc σ Unit := do
  let volts ← read_reg16 T e fd 0x88 0
  let watts ← read_reg16 T e fd 0xee 0
  emit [Out.line "# HELP corsair_global_supply_volts Global power supply volts",
        Out.line "# TYPE corsair_global_supply_volts gauge",
        Out.gauge "corsair_global_supply_volts" (mkv volts),
        Out.line "# HELP corsair_global_power_watts Global power used in watts",
        Out.line "# TYPE corsair_global_power_watts gauge",
        Out.gauge "corsair_global_power_watts" (mkv watts),
        Out.line "# HELP corsair_green_equipment_power_consumption_va Global power used in watts",
        Out.line "# TYPE corsair_green_equipment_power_consumption_va gauge",
        Out.gauge "corsair_green_equipment_power_consumption_va" (mkv watts)]

/-- The locals of `dump_powers` that the first loop updates. -/
structure Rails where
  val : Nat
  volts : List ℚ
  amps : List ℚ
  watts : List ℚ

/-- A loop `for (osel = 0; osel < 3; osel++)`, entered at `osel` with the
locals `st`. -/
def for_osel {σ α : Type} (body : Nat → α → Proc σ α) (osel : Nat) (st : α) : Proc σ α :=
  if h : osel < 3 then do
    let st ← body osel st
    for_osel body (osel + 1) st
  else
    pure st
termination_by 3 - osel

/-- The body of the first loop of `dump_powers` (`PROMETHEUS` is 1). -/
def dump_powers_body {σ : Type} (T : Transport σ) (e : Endian) (fd : Int)
    (osel : Nat) (st : Rails) : Proc σ Rails := do
  let _ ← send_recv_cmd T fd 0x02 0x00 (Fin.ofNat osel) none 0
  let val ← read_reg32 T e fd 0x8b st.val
  let volts := st.volts.set osel (mkv val)
  let val ← read_reg32 T e fd 0x8c val
  let amps := st.amps.set osel (mkv val)
  let val ← read_reg32 T e fd 0x96 val
  let watts := st.watts.set osel (mkv val)
  pure { val := val, volts := volts, amps := amps, watts := watts }

/-- The function `dump_powers` (`PROMETHEUS` is 1).  The locals have no
initialiser; they are taken as 0 and overwritten in the first loop. -/
def dump_powers {σ : Type} (T : Transport σ) (e : Endian) (fd : Int) : Proc σ Unit := do
  let st ← for_osel (dump_powers_body T e fd) 0
    { val := 0, volts := [0, 0, 0], amps := [0, 0, 0], watts := [0, 0, 0] }
  emit [Out.line "# HELP corsair_output_volts single output in volts",
        Out.line "# TYPE corsair_output_volts gauge"]
  for_osel (fun osel _ => emit [Out.rail "corsair_output_volts" osel (st.volts.getD osel 0)]) 0 ()
  emit [Out.line "# HELP corsair_output_amperes single output in amperes",
        Out.line "# TYPE corsair_output_amperes gauge"]
  for_osel (fun osel _ => emit [Out.rail "corsair_output_amperes" osel (st.amps.getD osel 0)]) 0 ()
  emit [Out.line "# HELP corsair_output_watts single output power in watts",
        Out.line "# TYPE corsair_output_watts gauge"]
  for_osel (fun osel _ => emit [Out.rail "corsair_output_watts" osel (st.watts.getD osel 0)]) 0 ()

/-- The value of `EACCES`. -/
def EACCES : Int := 13

/-- The scan loop of `main`: `for (i = 0; i < 16; i++)` over `/dev/hidrawN`,
entered at `i`.  Returns `fd` and `had_eacces` as the loop leaves them. -/
def scan_loop {σ : Type} (fs : String → Node) (i : Nat) (fd : Int) (had_eacces : Bool) :
    Proc σ (Int × Bool) :=
  if h : i < 16 then do
    let name := "/dev/hidraw" ++ toString i
    let fd ← try_open_device fs name false
    if fd ≠ -1 then
      pure (fd, had_eacces)
    else
      scan_loop fs (i + 1) fd (if (fs name).errno = EACCES then true else had_eacces)
  else
    pure (fd, had_eacces)
termination_by 16 - i

/-- The part of `main` from `if (fd == -1)` to the end: the pass over the
matched device, the terminating command, and `close`. -/
def main_pass {σ : Type} (T : Transport σ) (e : Endian) (fd : Int) : Proc σ Int := do
  if fd = -1 then
    pure 1
  else
    dump_names T fd
    dump_times T e fd
    dump_temps T e fd
    dump_fan T e fd
    dump_global_power T e fd
    dump_powers T e fd
    let _ ← send_recv_cmd T fd 0x02 0x00 0x00 none 0
    sys_close fd
    pure 0

/-- The function `main`: `argv` is the argument vector (program name first),
`fs` the device nodes of the system.  The local `fd` has no initialiser; the
loop assigns it before it is read. -/
def main {σ : Type} (T : Transport σ) (e : Endian) (fs : String → Node) (argv : List String) :
    Proc σ Int := do
  if argv.length > 1 then
    if (argv.getD 1 "").get 0 = '-' ∨ argv.length ≠ 2 then
      complain Diag.usage
      pure 1
    else
      let fd ← try_open_device fs (argv.getD 1 "") true
      main_pass T e fd
  else
    let (fd, had_eacces) ← scan_loop fs 0 (-1) false
    if fd = -1 then
      complain Diag.noDevices
      if had_eacces then
        complain Diag.noPermission
        main_pass T e fd
      else
        main_pass T e fd
    else
      main_pass T e fd

/-! ## Devices and worlds used in the examples -/

/-- A device that answers every `write` with the count `wret` and every `read`
with the count `rret` and the bytes `resp`. -/
def scripted (wret rret : Int) (resp : List Byte) : Transport Unit where
  write := fun _ _ => (wret, ())
  read := fun _ _ => (rret, resp, ())

/-- A register file: the payload the example power supply returns per register. -/
def psuPayload (reg : Byte) : List Byte :=
  if reg = 0x8d then [0x41, 0xF8]
  else if reg = 0x8e then [0x2c, 0xf1]
  else if reg = 0x90 then [0xe6, 0xd3]
  else [0x1a, 0xd2, 0x34, 0x12]

/-- A power supply that answers every exchange correctly: it keeps the last
request and answers with its opcode, its register and the register's payload. -/
def psu : Transport (List Byte) where
  write := fun _ buf => (65, buf)
  read := fun s _ => (64, stored 64 (s.getD 1 0 :: s.getD 2 0 :: psuPayload (s.getD 2 0)), s)

/-- A fresh world over the device state `s`. -/
def World.init {σ : Type} (s : σ) : World σ := { dev := s, trace := [], out := [], err := [] }

/-- A 64-byte response with the given first four bytes. -/
def response (r0 r1 r2 r3 : Byte) : List Byte := r0 :: r1 :: r2 :: r3 :: List.replicate 60 0


/-! ## Request sequences -/

/-- A request: opcode, parameter A, parameter B. -/
abbrev Req := Byte × Byte × Byte

/-- The requests written to the device in a trace, in order: bytes 1..3 of
every buffer handed to `write`. -/
def requests (t : List Syscall) : List Req :=
  t.filterMap fun c =>
    match c with
    | Syscall.write _ buf _ => some (buf.getD 1 0, buf.getD 2 0, buf.getD 3 0)
    | _ => none

/-- The two system calls of one exchange that the device answers in full. -/
def exchange (fd : Int) (q : Req) : List Syscall :=
  [Syscall.write fd (request q.1 q.2.1 q.2.2) 65, Syscall.read fd 64 64]

/-- The system calls of a run of exchanges that the device answers in full. -/
def exchanges (fd : Int) (qs : List Req) : List Syscall := (qs.map (exchange fd)).flatten

/-- A device that answers every exchange correctly: in every state, the write
of a request is taken in full and the next read gives a full 64-byte response
that starts with the request's opcode and parameter A. -/
def Answers {σ : Type} (T : Transport σ) : Prop :=
  ∀ (s : σ) (b0 b1 b2 : Byte), ∃ (s1 s2 : σ) (r : List Byte),
    T.write s (request b0 b1 b2) = (65, s1) ∧ T.read s1 64 = (64, r, s2)
      ∧ r.length = 64 ∧ r.getD 0 0 = b0 ∧ r.getD 1 0 = b1

/-- The piece `m` of the program returns from every world, after issuing
exactly the exchanges `qs` on `fd` and no other system call. -/
def Issues {σ α : Type} (m : Proc σ α) (fd : Int) (qs : List Req) : Prop :=
  ∀ w : World σ, ∃ (a : α) (w1 : World σ),
    m w = Res.ok a w1 ∧ w1.trace = w.trace ++ exchanges fd qs

/-- The twelve requests of the per-rail step, rail by rail. -/
def rail_requests : List Req :=
  [(0x02, 0x00, 0), (0x03, 0x8b, 0x00), (0x03, 0x8c, 0x00), (0x03, 0x96, 0x00),
   (0x02, 0x00, 1), (0x03, 0x8b, 0x00), (0x03, 0x8c, 0x00), (0x03, 0x96, 0x00),
   (0x02, 0x00, 2), (0x03, 0x8b, 0x00), (0x03, 0x8c, 0x00), (0x03, 0x96, 0x00)]

/-- The requests of the steps of the pass that come before the per-rail step. -/
def head_requests : List Req :=
  [(0xfe, 0x03, 0x00), (0x03, 0x99, 0x00), (0x03, 0x9a, 0x00),
   (0x03, 0xd1, 0x00), (0x03, 0xd2, 0x00),
   (0x03, 0x8d, 0x00), (0x03, 0x8e, 0x00),
   (0x03, 0x8d, 0x00),
   (0x03, 0x88, 0x00), (0x03, 0xee, 0x00)]

/-- Whether a request is a read of a rail-scoped register (0x8b, 0x8c, 0x96). -/
def isRailRead (q : Req) : Bool :=
  q.1 = 0x03 ∧ (q.2.1 = 0x8b ∨ q.2.1 = 0x8c ∨ q.2.1 = 0x96)

/-- Whether a request has the rail-select opcode 0x02. -/
def isSelect (q : Req) : Bool := q.1 = 0x02

/-- A valid 64-byte response to the request (b0, b1, _) whose payload bytes 2
and 3 hold the 16-bit word `v`, low byte first. -/
def Carries (r : List Byte) (b0 b1 : Byte) (v : Nat) : Prop :=
  r.length = 64 ∧ r.getD 0 0 = b0 ∧ r.getD 1 0 = b1
    ∧ (r.getD 2 0).val = v % 256 ∧ (r.getD 3 0).val = v / 256

/-! ## Answered exchanges and the values read -/

/-- The device, in state `s`, answers the request (b0, b1, b2) in full: the
write is taken whole, the read gives the valid 64-byte response `r` (it starts
with b0, b1), and the device is left in state `s2`. -/
def Exch {σ : Type} (T : Transport σ) (s : σ) (b0 b1 b2 : Byte) (r : List Byte) (s2 : σ) :
    Prop :=
  ∃ s1 : σ, T.write s (request b0 b1 b2) = (65, s1) ∧ T.read s1 64 = (64, r, s2)
    ∧ r.length = 64 ∧ r.getD 0 0 = b0 ∧ r.getD 1 0 = b1

/-- The `uint16_t` a host of byte order `e` holds after the first two payload
bytes of the response `r` were copied into it. -/
def word16 (e : Endian) (r : List Byte) : Nat := objValue e [r.getD 2 0, r.getD 3 0]

/-- The `uint32_t` a host of byte order `e` holds after the first four payload
bytes of the response `r` were copied into it. -/
def word32 (e : Endian) (r : List Byte) : Nat :=
  objValue e [r.getD 2 0, r.getD 3 0, r.getD 4 0, r.getD 5 0]

/-! ## Release of the descriptor -/

/-- Whether a system call is a `close`. -/
def isClose : Syscall → Bool
  | Syscall.close _ => true
  | _ => false

/-- The piece `m` of the program never calls `close`, and when it ends the
process it does so with `exit(1)`. -/
def Unclosed {σ α : Type} (m : Proc σ α) : Prop :=
  ∀ w : World σ,
    (∃ evs : List Syscall, (m w).world.trace = w.trace ++ evs ∧ ∀ c ∈ evs, isClose c = false)
      ∧ ∀ (s : Int) (w1 : World σ), m w = Res.exit s w1 → s = 1

/-! ## The `#else` branch of the fan step (`PROMETHEUS` 0) -/

/-- The function `print_std_reg` (the `#else` branch of `print_prometheus_reg`):
`label` is the formatted name, the value printed is `mkv(val)`. -/
def print_std_reg {σ : Type} (T : Transport σ) (e : Endian) (fd : Int) (reg : Byte)
    (label : String) : Proc σ Unit := do
  let val ← read_reg16 T e fd reg 0
  emit [Out.gauge label (mkv val)]

/-- The function `dump_fan` as compiled with `PROMETHEUS` 0 (its `#else` branch). -/
def dump_fan_std {σ : Type} (T : Transport σ) (e : Endian) (fd : Int) : Proc σ Unit :=
  print_std_reg T e fd 0x90 "fan rpm"

/-! ## Per-rail answers and further example devices -/

/-- The device, in state `s`, answers in full the four exchanges of rail
`osel`: the select, then the reads of 0x8b, 0x8c and 0x96 with the responses
`rv`, `ra`, `rw`; it is left in state `s2`. -/
def RailAnswers {σ : Type} (T : Transport σ) (s : σ) (osel : Byte) (rv ra rw : List Byte)
    (s2 : σ) : Prop :=
  ∃ (r0 : List Byte) (sa sb sc : σ),
    Exch T s 0x02 0x00 osel r0 sa ∧ Exch T sa 0x03 0x8b 0x00 rv sb
      ∧ Exch T sb 0x03 0x8c 0x00 ra sc ∧ Exch T sc 0x03 0x96 0x00 rw s2

/-- The response of the example power supply to the read of a register other
than 0x8d, 0x8e, 0x90: payload 0x1a 0xd2 0x34 0x12. -/
def railResponse (reg : Byte) : List Byte :=
  0x03 :: reg :: 0x1a :: 0xd2 :: 0x34 :: 0x12 :: List.replicate 58 0

/-- A device that answers every exchange correctly with 62 payload bytes 0x41,
none of them 0. -/
def chatty : Transport (List Byte) where
  write := fun _ buf => (65, buf)
  read := fun s _ => (64, s.getD 1 0 :: s.getD 2 0 :: List.replicate 62 0x41, s)

/-! # Theorems -/

/-! ## Decoder: field extraction -/

theorem mkv_p_eq (w : Nat) : mkv_p w = specExponent w := by
  unfold mkv_p specExponent sar32 toInt16 toUInt16
  rw [Int.shiftRight_eq_div_pow]
  split <;> split <;> omega

theorem mkv_v_eq (w : Nat) : mkv_v w = specMantissa w := by
  unfold mkv_v specMantissa sar32 shl32 wrapInt32 toUInt16
  rw [Int.shiftRight_eq_div_pow]
  split <;> split <;> omega

theorem specEncode_eq (m e : Int) :
    specEncode m e = (e % 32).toNat * 2048 + (m % 2048).toNat := by
  unfold specEncode
  rw [Nat.shiftLeft_eq]
  have h : (m % 2048).toNat < 2 ^ 11 := by omega
  have := Nat.mul_add_lt_is_or h ((e % 32).toNat)
  rw [Nat.mul_comm, ← this]

theorem specExponent_encode (m e : Int) (he : -16 ≤ e ∧ e ≤ 15) :
    specExponent (specEncode m e) = e := by
  rw [specEncode_eq]; unfold specExponent
  split <;> omega

theorem specMantissa_encode (m e : Int) (hm : -1024 ≤ m ∧ m ≤ 1023) :
    specMantissa (specEncode m e) = m := by
  rw [specEncode_eq]; unfold specMantissa
  split <;> omega

/-- C1: for every word `w`, `mkv w` is the mantissa field times two to the
exponent field, where the exponent is bits 15..11 of `w` read as a
two's-complement integer (in -16..15) and the mantissa is bits 10..0 read as
a two's-complement integer (in -1024..1023).  `mkv` is a total function: the
equation holds at every input, with no side condition. -/
theorem mkv_decodes (w : Nat) :
    mkv w = (specMantissa w : ℚ) * (2 : ℚ) ^ specExponent w
      ∧ (-16 ≤ specExponent w ∧ specExponent w ≤ 15)
      ∧ (-1024 ≤ specMantissa w ∧ specMantissa w ≤ 1023) := by
  refine ⟨?_, ?_, ?_⟩
  · rw [mkv, mkv_p_eq, mkv_v_eq]
  · unfold specExponent; split <;> omega
  · unfold specMantissa; split <;> omega

/-- C2: decoder round-trip.  For every mantissa `m` in [-1024, 1023] and every
exponent `e` in [-16, 15], the word `((e mod 32) << 11) | (m mod 2048)` decodes
to exactly `m * 2^e`. -/
theorem mkv_roundtrip (m e : Int) (hm : -1024 ≤ m ∧ m ≤ 1023) (he : -16 ≤ e ∧ e ≤ 15) :
    mkv (specEncode m e) = (m : ℚ) * (2 : ℚ) ^ e := by
  rw [mkv, mkv_p_eq, mkv_v_eq, specExponent_encode m e he, specMantissa_encode m e hm]

/-- C2, the examples of the specification: word 0x0000 decodes to 0, the pair
(100, 0) to 100, the pair (1, -1) to one half. -/
theorem mkv_roundtrip_witness :
    specEncode 0 0 = 0x0000 ∧ mkv 0x0000 = 0
      ∧ specEncode 100 0 = 0x0064 ∧ mkv 0x0064 = 100
      ∧ specEncode 1 (-1) = 0xF801 ∧ mkv 0xF801 = 1 / 2 := by
  have h0 := mkv_roundtrip 0 0 (by decide) (by decide)
  have h1 := mkv_roundtrip 100 0 (by decide) (by decide)
  have h2 := mkv_roundtrip 1 (-1) (by decide) (by decide)
  rw [show specEncode 0 0 = 0 by decide] at h0
  rw [show specEncode 100 0 = 0x0064 by decide] at h1
  rw [show specEncode 1 (-1) = 0xF801 by decide] at h2
  refine ⟨by decide, ?_, by decide, ?_, by decide, ?_⟩
  · rw [h0]; norm_num
  · rw [h1]; norm_num
  · rw [h2]; norm_num

/-! ## Sequencing lemmas -/

theorem bind_ok {σ α β : Type} (m : Proc σ α) (f : α → Proc σ β) (w w1 : World σ) (a : α)
    (h : m w = Res.ok a w1) : (m >>= f) w = f a w1 := by
  show Proc.bind m f w = _
  simp [Proc.bind, h]

theorem bind_exit {σ α β : Type} (m : Proc σ α) (f : α → Proc σ β) (w w1 : World σ) (s : Int)
    (h : m w = Res.exit s w1) : (m >>= f) w = Res.exit s w1 := by
  show Proc.bind m f w = _
  simp [Proc.bind, h]

theorem pure_apply {σ α : Type} (a : α) (w : World σ) : (pure a : Proc σ α) w = Res.ok a w := rfl

theorem emit_apply {σ : Type} (o : List Out) (w : World σ) :
    (emit o : Proc σ Unit) w = Res.ok () { w with out := w.out ++ o } := rfl

theorem proc_bind_assoc {σ α β γ : Type} (m : Proc σ α) (f : α → Proc σ β)
    (g : β → Proc σ γ) : (m >>= f) >>= g = m >>= fun a => f a >>= g := by
  funext w
  show Proc.bind (Proc.bind m f) g w = Proc.bind m (fun a => Proc.bind (f a) g) w
  unfold Proc.bind
  cases m w <;> rfl

/-! ## One exchange, case by case -/

theorem stored_of_length (n : Nat) (r : List Byte) (h : r.length = n) : stored n r = r := by
  unfold stored
  rw [List.take_append_of_le_length (by omega), List.take_of_length_le (by omega)]

theorem request_eq (b0 b1 b2 : Byte) :
    request b0 b1 b2 = 0 :: b0 :: b1 :: b2 :: List.replicate 61 0 := by
  simp [request, List.replicate]

theorem send_recv_cmd_short_write {σ : Type} (T : Transport σ) (fd : Int) (b0 b1 b2 : Byte)
    (buf : Option (List Byte)) (n : Nat) (w : World σ) (ret : Int) (s1 : σ)
    (hw : T.write w.dev (request b0 b1 b2) = (ret, s1)) (hret : ret ≠ 65) :
    send_recv_cmd T fd b0 b1 b2 buf n w =
      Res.exit 1 { dev := s1, trace := w.trace ++ [Syscall.write fd (request b0 b1 b2) ret],
                   out := w.out, err := w.err ++ [Diag.shortWrite ret 65] } := by
  simp [send_recv_cmd, bind, Proc.bind, sys_write, hw, hret, complain, exit]

theorem send_recv_cmd_short_read {σ : Type} (T : Transport σ) (fd : Int) (b0 b1 b2 : Byte)
    (buf : Option (List Byte)) (n : Nat) (w : World σ) (s1 s2 : σ) (ret : Int) (data : List Byte)
    (hw : T.write w.dev (request b0 b1 b2) = (65, s1))
    (hr : T.read s1 64 = (ret, data, s2)) (hret : ret ≠ 64) :
    send_recv_cmd T fd b0 b1 b2 buf n w =
      Res.exit 1 { dev := s2,
                   trace := w.trace ++ [Syscall.write fd (request b0 b1 b2) 65, Syscall.read fd 64 ret],
                   out := if ret > 0 then w.out ++ [Out.hexdump ((stored 64 data).take ret.toNat)]
                          else w.out,
                   err := w.err ++ [Diag.shortRead ret 64] } := by
  simp [send_recv_cmd, bind, Proc.bind, sys_write, sys_read, hw, hr, hret, complain, exit,
    dump, emit]
  split <;> rfl

theorem send_recv_cmd_mismatch {σ : Type} (T : Transport σ) (fd : Int) (b0 b1 b2 : Byte)
    (buf : Option (List Byte)) (n : Nat) (w : World σ) (s1 s2 : σ) (data : List Byte)
    (hw : T.write w.dev (request b0 b1 b2) = (65, s1))
    (hr : T.read s1 64 = (64, data, s2))
    (hne : (stored 64 data).getD 0 0 ≠ b0 ∨ (stored 64 data).getD 1 0 ≠ b1) :
    send_recv_cmd T fd b0 b1 b2 buf n w =
      Res.exit 1 { dev := s2,
                   trace := w.trace ++ [Syscall.write fd (request b0 b1 b2) 65, Syscall.read fd 64 64],
                   out := w.out ++ [Out.hexdump ((stored 64 data).take 64)],
                   err := w.err ++ [Diag.unexpectedResponse ((stored 64 data).getD 0 0)
                     ((stored 64 data).getD 1 0) b0 b1 b2] } := by
  simp only [send_recv_cmd, bind, Proc.bind, sys_write, sys_read, hw, hr, complain, exit,
    dump, emit, ne_eq, not_true_eq_false, if_false, hne, if_true]
  simp

theorem send_recv_cmd_ok {σ : Type} (T : Transport σ) (fd : Int) (b0 b1 b2 : Byte)
    (buf : Option (List Byte)) (n : Nat) (w : World σ) (s1 s2 : σ) (data : List Byte)
    (hw : T.write w.dev (request b0 b1 b2) = (65, s1))
    (hr : T.read s1 64 = (64, data, s2))
    (h0 : (stored 64 data).getD 0 0 = b0) (h1 : (stored 64 data).getD 1 0 = b1) :
    send_recv_cmd T fd b0 b1 b2 buf n w =
      Res.ok (payload buf n (stored 64 data))
        { dev := s2,
          trace := w.trace ++ [Syscall.write fd (request b0 b1 b2) 65, Syscall.read fd 64 64],
          out := w.out, err := w.err } := by
  simp only [send_recv_cmd, bind, Proc.bind, sys_write, sys_read, hw, hr, complain, exit,
    dump, emit, ne_eq, not_true_eq_false, if_false, h0, h1, or_self]
  simp [pure]

/-- C3: echo validation.  After a full 65-byte write, for every full 64-byte
response `r` the exchange returns if and only if `r[0] = b0` and `r[1] = b1`;
when `r[0] ≠ b0` or `r[1] ≠ b1` the process ends in `exit(1)` with the
"unexpected response" message, whatever the caller's buffer and size: the
copy into the caller's buffer is not reached and no buffer is returned. -/
theorem echo_validation {σ : Type} (T : Transport σ) (fd : Int) (b0 b1 b2 : Byte)
    (buf : Option (List Byte)) (n : Nat) (w : World σ) (s1 s2 : σ) (r : List Byte)
    (hw : T.write w.dev (request b0 b1 b2) = (65, s1))
    (hr : T.read s1 64 = (64, r, s2)) (hlen : r.length = 64) :
    ((∃ a w1, send_recv_cmd T fd b0 b1 b2 buf n w = Res.ok a w1)
        ↔ (r.getD 0 0 = b0 ∧ r.getD 1 0 = b1))
      ∧ ((r.getD 0 0 ≠ b0 ∨ r.getD 1 0 ≠ b1) →
          send_recv_cmd T fd b0 b1 b2 buf n w =
            Res.exit 1
              { dev := s2,
                trace := w.trace ++
                  [Syscall.write fd (request b0 b1 b2) 65, Syscall.read fd 64 64],
                out := w.out ++ [Out.hexdump r],
                err := w.err ++
                  [Diag.unexpectedResponse (r.getD 0 0) (r.getD 1 0) b0 b1 b2] }) := by
  have hst : stored 64 r = r := stored_of_length 64 r hlen
  have hbad : (r.getD 0 0 ≠ b0 ∨ r.getD 1 0 ≠ b1) →
      send_recv_cmd T fd b0 b1 b2 buf n w =
        Res.exit 1
          { dev := s2,
            trace := w.trace ++
              [Syscall.write fd (request b0 b1 b2) 65, Syscall.read fd 64 64],
            out := w.out ++ [Out.hexdump r],
            err := w.err ++
              [Diag.unexpectedResponse (r.getD 0 0) (r.getD 1 0) b0 b1 b2] } := by
    intro hne
    have h := send_recv_cmd_mismatch T fd b0 b1 b2 buf n w s1 s2 r hw hr (by rw [hst]; exact hne)
    rw [hst, List.take_of_length_le (by omega)] at h
    exact h
  refine ⟨⟨?_, ?_⟩, hbad⟩
  · rintro ⟨a, w1, hok⟩
    by_contra hcon
    have hne : r.getD 0 0 ≠ b0 ∨ r.getD 1 0 ≠ b1 := by
      by_cases h0 : r.getD 0 0 = b0
      · right; intro h1; exact hcon ⟨h0, h1⟩
      · left; exact h0
    rw [hbad hne] at hok
    cases hok
  · rintro ⟨h0, h1⟩
    exact ⟨_, _, send_recv_cmd_ok T fd b0 b1 b2 buf n w s1 s2 r hw hr
      (by rw [hst]; exact h0) (by rw [hst]; exact h1)⟩

/-- C3 at a concrete exchange: the request (0x03, 0x8d, 0x00) answered by a
full response that starts 0x03 0x8e is rejected with the protocol error. -/
theorem echo_validation_witness :
    send_recv_cmd (scripted 65 64 (response 0x03 0x8e 0x41 0xF8)) 3 0x03 0x8d 0x00
        (some [0, 0]) 2 (World.init ()) =
      Res.exit 1
        { dev := (),
          trace := [Syscall.write 3 (request 0x03 0x8d 0x00) 65, Syscall.read 3 64 64],
          out := [Out.hexdump (response 0x03 0x8e 0x41 0xF8)],
          err := [Diag.unexpectedResponse 0x03 0x8e 0x03 0x8d 0x00] } :=
  (echo_validation (scripted 65 64 (response 0x03 0x8e 0x41 0xF8)) 3 0x03 0x8d 0x00
      (some [0, 0]) 2 (World.init ()) () () (response 0x03 0x8e 0x41 0xF8)
      rfl rfl (by decide)).2 (by decide)

/-- C4: short I/O.  Whatever follows the exchange in the pass (`rest`): if
`write` returns a count other than 65 the process ends in `exit(1)` with the
write as its last system call (no read is attempted); if `write` returns 65
and `read` returns a count other than 64 the process ends in `exit(1)` with
that read as its last system call.  In both cases no buffer is returned to
the caller, standard output gets no reading (only, after a partial read of
`ret > 0` bytes, the dump of those bytes), and `rest` is not run, so no later
exchange is issued. -/
theorem short_io_aborts {σ β : Type} (T : Transport σ) (fd : Int) (b0 b1 b2 : Byte)
    (buf : Option (List Byte)) (n : Nat) (w : World σ)
    (rest : Option (List Byte) → Proc σ β) :
    (∀ (ret : Int) (s1 : σ), T.write w.dev (request b0 b1 b2) = (ret, s1) → ret ≠ 65 →
        (send_recv_cmd T fd b0 b1 b2 buf n >>= rest) w =
          Res.exit 1
            { dev := s1,
              trace := w.trace ++ [Syscall.write fd (request b0 b1 b2) ret],
              out := w.out,
              err := w.err ++ [Diag.shortWrite ret 65] })
      ∧ (∀ (s1 s2 : σ) (ret : Int) (data : List Byte),
          T.write w.dev (request b0 b1 b2) = (65, s1) → T.read s1 64 = (ret, data, s2) →
          ret ≠ 64 →
          (send_recv_cmd T fd b0 b1 b2 buf n >>= rest) w =
            Res.exit 1
              { dev := s2,
                trace := w.trace ++
                  [Syscall.write fd (request b0 b1 b2) 65, Syscall.read fd 64 ret],
                out := if ret > 0 then
                    w.out ++ [Out.hexdump ((stored 64 data).take ret.toNat)]
                  else w.out,
                err := w.err ++ [Diag.shortRead ret 64] }) := by
  constructor
  · intro ret s1 hw hret
    exact bind_exit _ _ _ _ _ (send_recv_cmd_short_write T fd b0 b1 b2 buf n w ret s1 hw hret)
  · intro s1 s2 ret data hw hr hret
    exact bind_exit _ _ _ _ _
      (send_recv_cmd_short_read T fd b0 b1 b2 buf n w s1 s2 ret data hw hr hret)

/-- C4 at concrete runs of the temperature step: a write that returns 64 ends
the run before any read and before the second exchange; a read that returns 3
ends it with the 3 bytes dumped and no reading printed. -/
theorem short_io_aborts_witness :
    (send_recv_cmd (scripted 64 64 (response 0x03 0x8d 0x41 0xF8)) 3 0x03 0x8d 0x00
          (some [0, 0]) 2 >>=
        fun _ => send_recv_cmd (scripted 64 64 (response 0x03 0x8d 0x41 0xF8)) 3 0x03 0x8e 0x00
          (some [0, 0]) 2) (World.init ()) =
      Res.exit 1
        { dev := (),
          trace := [Syscall.write 3 (request 0x03 0x8d 0x00) 64],
          out := [],
          err := [Diag.shortWrite 64 65] }
    ∧ (send_recv_cmd (scripted 65 3 [0x03, 0x8d, 0x41]) 3 0x03 0x8d 0x00 (some [0, 0]) 2 >>=
        fun _ => send_recv_cmd (scripted 65 3 [0x03, 0x8d, 0x41]) 3 0x03 0x8e 0x00
          (some [0, 0]) 2) (World.init ()) =
      Res.exit 1
        { dev := (),
          trace := [Syscall.write 3 (request 0x03 0x8d 0x00) 65, Syscall.read 3 64 3],
          out := [Out.hexdump [0x03, 0x8d, 0x41]],
          err := [Diag.shortRead 3 64] } :=
  ⟨(short_io_aborts (scripted 64 64 (response 0x03 0x8d 0x41 0xF8)) 3 0x03 0x8d 0x00
      (some [0, 0]) 2 (World.init ()) _).1 64 () rfl (by decide),
   (short_io_aborts (scripted 65 3 [0x03, 0x8d, 0x41]) 3 0x03 0x8d 0x00
      (some [0, 0]) 2 (World.init ()) _).2 () () 3 [0x03, 0x8d, 0x41] rfl rfl (by decide)⟩

/-- C5: request framing.  The buffer built for (b0, b1, b2) has 65 bytes: byte
0 is 0, bytes 1, 2, 3 are b0, b1, b2, and the 61 bytes 4..64 are 0.  It is
the buffer handed to `write`: the first system call of every exchange is the
`write` of this buffer, and the exchange makes no other `write`. -/
theorem request_framing {σ : Type} (T : Transport σ) (fd : Int) (b0 b1 b2 : Byte)
    (buf : Option (List Byte)) (n : Nat) (w : World σ) :
    request b0 b1 b2 = 0 :: b0 :: b1 :: b2 :: List.replicate 61 0
      ∧ (request b0 b1 b2).length = 65
      ∧ ∃ tail : List Syscall,
          (send_recv_cmd T fd b0 b1 b2 buf n w).world.trace =
            w.trace ++ Syscall.write fd (request b0 b1 b2)
              (T.write w.dev (request b0 b1 b2)).1 :: tail
          ∧ ∀ c ∈ tail, ∃ ret : Int, c = Syscall.read fd 64 ret := by
  refine ⟨request_eq b0 b1 b2, by simp [request], ?_⟩
  have hw : T.write w.dev (request b0 b1 b2) =
      ((T.write w.dev (request b0 b1 b2)).1, (T.write w.dev (request b0 b1 b2)).2) := rfl
  by_cases h65 : (T.write w.dev (request b0 b1 b2)).1 = 65
  · rw [h65] at hw
    have hr : T.read (T.write w.dev (request b0 b1 b2)).2 64 =
        ((T.read (T.write w.dev (request b0 b1 b2)).2 64).1,
         (T.read (T.write w.dev (request b0 b1 b2)).2 64).2.1,
         (T.read (T.write w.dev (request b0 b1 b2)).2 64).2.2) := rfl
    refine ⟨[Syscall.read fd 64 (T.read (T.write w.dev (request b0 b1 b2)).2 64).1], ?_, ?_⟩
    · by_cases h64 : (T.read (T.write w.dev (request b0 b1 b2)).2 64).1 = 64
      · rw [h64] at hr
        by_cases hne : (stored 64 (T.read (T.write w.dev (request b0 b1 b2)).2 64).2.1).getD 0 0 ≠ b0
            ∨ (stored 64 (T.read (T.write w.dev (request b0 b1 b2)).2 64).2.1).getD 1 0 ≠ b1
        · rw [send_recv_cmd_mismatch T fd b0 b1 b2 buf n w _ _ _ hw hr hne, h65, h64]
          simp [Res.world]
        · have h0 := not_not.mp (not_or.mp hne).1
          have h1 := not_not.mp (not_or.mp hne).2
          rw [send_recv_cmd_ok T fd b0 b1 b2 buf n w _ _ _ hw hr h0 h1, h65, h64]
          simp [Res.world]
      · rw [send_recv_cmd_short_read T fd b0 b1 b2 buf n w _ _ _ _ hw hr h64, h65]
        simp [Res.world]
    · intro c hc
      exact ⟨_, List.mem_singleton.mp hc⟩
  · refine ⟨[], ?_, by simp⟩
    rw [send_recv_cmd_short_write T fd b0 b1 b2 buf n w _ _ hw h65]
    simp [Res.world]

theorem payload_some_get (b r : List Byte) (n : Nat) (hlen : r.length = 64) :
    ∃ dst, payload (some b) n r = some dst
      ∧ (∀ i, i < min n 62 → dst[i]? = r[2 + i]?)
      ∧ (∀ i, min n 62 ≤ i → dst[i]? = b[i]?)
      ∧ (min n 62 ≤ b.length → dst.length = b.length) := by
  by_cases hn : n > 0
  · refine ⟨memcpy b (r.drop 2) (min n 62), ?_, ?_, ?_, ?_⟩
    · simp only [payload, hn, if_true]
      by_cases h62 : n > 62
      · simp [h62, Nat.min_eq_right (Nat.le_of_lt h62)]
      · simp [h62, Nat.min_eq_left (Nat.le_of_not_lt h62)]
    · intro i hi
      have hk : min n 62 ≤ 62 := Nat.min_le_right _ _
      unfold memcpy
      rw [List.getElem?_append_left (by simp; omega)]
      rw [List.getElem?_take_of_lt hi, List.getElem?_drop]
    · intro i hi
      have hk : min n 62 ≤ 62 := Nat.min_le_right _ _
      unfold memcpy
      have hl : (List.take (min n 62) (List.drop 2 r)).length = min n 62 := by simp; omega
      rw [List.getElem?_append_right (by omega), hl, List.getElem?_drop]
      congr 1; omega
    · intro hb
      have hk : min n 62 ≤ 62 := Nat.min_le_right _ _
      unfold memcpy
      simp; omega
  · have h0 : n = 0 := by omega
    subst h0
    refine ⟨b, by simp [payload], ?_, ?_, ?_⟩
    · intro i hi; simp at hi
    · intro i _; rfl
    · intro _; rfl

/-- C6: payload extraction.  On a successful exchange (full write, full
64-byte response `r` with the echo bytes) with a non-null caller buffer `b`
and requested size `n`, the exchange returns the caller's buffer with exactly
`k = min n 62` bytes copied: byte `i` is response byte `2 + i` for `i < k`,
bytes at index `≥ k` are those of `b`, the length is unchanged when `b` has
room for `k` bytes, and the highest response index read, `2 + k - 1`, is
below 64.  With `n = 0` the buffer is returned as it was, and with a null
buffer nothing is returned. -/
theorem payload_extraction {σ : Type} (T : Transport σ) (fd : Int) (b0 b1 b2 : Byte)
    (b : List Byte) (n : Nat) (w : World σ) (s1 s2 : σ) (r : List Byte)
    (hw : T.write w.dev (request b0 b1 b2) = (65, s1))
    (hr : T.read s1 64 = (64, r, s2)) (hlen : r.length = 64)
    (h0 : r.getD 0 0 = b0) (h1 : r.getD 1 0 = b1) :
    (∃ dst : List Byte,
        send_recv_cmd T fd b0 b1 b2 (some b) n w =
          Res.ok (some dst)
            { dev := s2,
              trace := w.trace ++
                [Syscall.write fd (request b0 b1 b2) 65, Syscall.read fd 64 64],
              out := w.out, err := w.err }
        ∧ (∀ i, i < min n 62 → dst[i]? = r[2 + i]?)
        ∧ (∀ i, min n 62 ≤ i → dst[i]? = b[i]?)
        ∧ (min n 62 ≤ b.length → dst.length = b.length)
        ∧ (n = 0 → dst = b))
      ∧ 2 + min n 62 ≤ r.length
      ∧ send_recv_cmd T fd b0 b1 b2 none n w =
          Res.ok none
            { dev := s2,
              trace := w.trace ++
                [Syscall.write fd (request b0 b1 b2) 65, Syscall.read fd 64 64],
              out := w.out, err := w.err } := by
  have hst : stored 64 r = r := stored_of_length 64 r hlen
  have hok := fun buf => send_recv_cmd_ok T fd b0 b1 b2 buf n w s1 s2 r hw hr
    (by rw [hst]; exact h0) (by rw [hst]; exact h1)
  rw [hst] at hok
  refine ⟨?_, ?_, ?_⟩
  · obtain ⟨dst, hd, hlo, hhi, hl⟩ := payload_some_get b r n hlen
    refine ⟨dst, ?_, hlo, hhi, hl, ?_⟩
    · rw [hok, hd]
    · intro hn
      subst hn
      simp [payload] at hd
      exact hd.symm
  · have hk : min n 62 ≤ 62 := Nat.min_le_right _ _
    omega
  · rw [hok]; rfl

/-- C6 at a concrete exchange: a 16-bit read (size 2) of a response with
payload 0x41 0xF8 returns the buffer [0x41, 0xF8]. -/
theorem payload_extraction_witness :
    ∃ dst : List Byte,
      send_recv_cmd (scripted 65 64 (response 0x03 0x8d 0x41 0xF8)) 3 0x03 0x8d 0x00
          (some [0, 0]) 2 (World.init ()) =
        Res.ok (some dst)
          { dev := (),
            trace := [Syscall.write 3 (request 0x03 0x8d 0x00) 65, Syscall.read 3 64 64],
            out := [], err := [] }
      ∧ (∀ i, i < min 2 62 → dst[i]? = (response 0x03 0x8d 0x41 0xF8)[2 + i]?) := by
  obtain ⟨dst, h, hlo, _⟩ :=
    (payload_extraction (scripted 65 64 (response 0x03 0x8d 0x41 0xF8)) 3 0x03 0x8d 0x00
      [0, 0] 2 (World.init ()) () () (response 0x03 0x8d 0x41 0xF8) rfl rfl
      (by decide) (by decide) (by decide)).1
  exact ⟨dst, h, hlo⟩

theorem product_loop_iff (p : Int) (l : List Int) : product_loop p l = true ↔ p ∈ l := by
  induction l with
  | nil => simp [product_loop]
  | cons q rest ih =>
    unfold product_loop
    by_cases h : p = q
    · simp [h]
    · simp [h, ih]

theorem try_open_device_accept {σ : Type} (fs : String → Node) (name : String)
    (report_errors : Bool) (w : World σ)
    (hopen : (fs name).openRet ≠ -1) (hquery : (fs name).ioctlRet = 0)
    (hv : (fs name).vendor = 0x1b1c) (hp : (fs name).product ∈ products) :
    try_open_device fs name report_errors w =
      Res.ok (fs name).openRet
        { w with trace := w.trace ++ [Syscall.open name (fs name).openRet,
                   Syscall.ioctl (fs name).openRet 0] } := by
  have hl := (product_loop_iff (fs name).product products).mpr hp
  simp [try_open_device, bind, Proc.bind, sys_open, sys_ioctl, hopen, hquery, hv, hl, pure]

theorem try_open_device_reject {σ : Type} (fs : String → Node) (name : String)
    (report_errors : Bool) (w : World σ)
    (hopen : (fs name).openRet ≠ -1) (hquery : (fs name).ioctlRet = 0)
    (hno : ¬ ((fs name).vendor = 0x1b1c ∧ (fs name).product ∈ products)) :
    try_open_device fs name report_errors w =
      Res.ok (-1)
        { w with trace := w.trace ++ [Syscall.open name (fs name).openRet,
                   Syscall.ioctl (fs name).openRet 0, Syscall.close (fs name).openRet],
                 err := if report_errors then
                     w.err ++ [Diag.unexpectedDevice (fs name).vendor (fs name).product]
                   else w.err } := by
  by_cases hv : (fs name).vendor = 0x1b1c
  · have hp : ¬ product_loop (fs name).product products = true := fun h =>
      hno ⟨hv, (product_loop_iff (fs name).product products).mp h⟩
    cases report_errors <;>
      simp [try_open_device, bind, Proc.bind, sys_open, sys_ioctl, hopen, hquery, hv, hp,
        pure, sys_close, complain]
  · cases report_errors <;>
      simp [try_open_device, bind, Proc.bind, sys_open, sys_ioctl, hopen, hquery, hv,
        pure, sys_close, complain]

/-- C7: identity matching.  When `open` returns a descriptor and the identity
query returns 0, `try_open_device` returns that descriptor if the vendor is
0x1b1c and the product is one of the nine table entries, and returns -1 in
every other case: whatever the product when the vendor differs, and for
every product outside the table when the vendor is 0x1b1c. -/
theorem identity_matching {σ : Type} (fs : String → Node) (name : String)
    (report_errors : Bool) (w : World σ)
    (hopen : (fs name).openRet ≠ -1) (hquery : (fs name).ioctlRet = 0) :
    ∃ (fd : Int) (w1 : World σ),
      try_open_device fs name report_errors w = Res.ok fd w1
        ∧ (fd ≠ -1 ↔ ((fs name).vendor = 0x1b1c
            ∧ (fs name).product ∈
              ([0x1c0a, 0x1c0b, 0x1c0c, 0x1c0d, 0x1c04, 0x1c05, 0x1c06, 0x1c07, 0x1c08] :
                List Int)))
        ∧ (fd ≠ -1 → fd = (fs name).openRet)
        ∧ ((fs name).vendor ≠ 0x1b1c → fd = -1)
        ∧ ((fs name).product ∉
              ([0x1c0a, 0x1c0b, 0x1c0c, 0x1c0d, 0x1c04, 0x1c05, 0x1c06, 0x1c07, 0x1c08] :
                List Int) → fd = -1) := by
  by_cases hc : (fs name).vendor = 0x1b1c ∧ (fs name).product ∈ products
  · refine ⟨_, _, try_open_device_accept fs name report_errors w hopen hquery hc.1 hc.2,
      ?_, ?_, ?_, ?_⟩
    · exact ⟨fun _ => hc, fun _ => hopen⟩
    · intro _; rfl
    · intro h; exact absurd hc.1 h
    · intro h; exact absurd hc.2 h
  · refine ⟨_, _, try_open_device_reject fs name report_errors w hopen hquery hc,
      ?_, ?_, ?_, ?_⟩
    · exact ⟨fun h => absurd rfl h, fun h => absurd h hc⟩
    · intro h; exact absurd rfl h
    · intro _; rfl
    · intro _; rfl

/-- C7 at concrete nodes: an RM750i (0x1b1c:0x1c0b) opened as descriptor 3 is
accepted. -/
theorem identity_matching_witness :
    ∃ (fd : Int) (w1 : World Unit),
      try_open_device (fun _ => Node.mk 3 0 0x1b1c 0x1c0b 0) "/dev/hidraw0" true
          (World.init ()) = Res.ok fd w1
        ∧ (fd ≠ -1 ↔ ((0x1b1c : Int) = 0x1b1c
            ∧ (0x1c0b : Int) ∈
              ([0x1c0a, 0x1c0b, 0x1c0c, 0x1c0d, 0x1c04, 0x1c05, 0x1c06, 0x1c07, 0x1c08] :
                List Int))) := by
  obtain ⟨fd, w1, h, hiff, _⟩ :=
    identity_matching (fun _ => Node.mk 3 0 0x1b1c 0x1c0b 0) "/dev/hidraw0" true
      (World.init ()) (by decide) (by decide)
  exact ⟨fd, w1, h, hiff⟩

/-! ## Runs against a device that answers every exchange -/

theorem exchanges_nil (fd : Int) : exchanges fd [] = [] := rfl

theorem exchanges_append (fd : Int) (p q : List Req) :
    exchanges fd (p ++ q) = exchanges fd p ++ exchanges fd q := by
  simp [exchanges]

theorem issues_pure {σ α : Type} (fd : Int) (a : α) : Issues (pure a : Proc σ α) fd [] := by
  intro w
  exact ⟨a, w, rfl, by simp [exchanges]⟩

theorem issues_emit {σ : Type} (fd : Int) (o : List Out) : Issues (emit o : Proc σ Unit) fd [] := by
  intro w
  exact ⟨(), _, rfl, by simp [exchanges]⟩

theorem issues_bind {σ α β : Type} (fd : Int) (m : Proc σ α) (f : α → Proc σ β)
    (p q : List Req) (hm : Issues m fd p) (hf : ∀ a, Issues (f a) fd q) :
    Issues (m >>= f) fd (p ++ q) := by
  intro w
  obtain ⟨a, w1, h1, t1⟩ := hm w
  obtain ⟨b, w2, h2, t2⟩ := hf a w1
  refine ⟨b, w2, ?_, ?_⟩
  · rw [bind_ok m f w w1 a h1, h2]
  · rw [t2, t1, exchanges_append, List.append_assoc]

theorem issues_send_recv_cmd {σ : Type} (T : Transport σ) (hT : Answers T) (fd : Int)
    (b0 b1 b2 : Byte) (buf : Option (List Byte)) (n : Nat) :
    Issues (send_recv_cmd T fd b0 b1 b2 buf n) fd [(b0, b1, b2)] := by
  intro w
  obtain ⟨s1, s2, r, hw, hr, hlen, h0, h1⟩ := hT w.dev b0 b1 b2
  have hst : stored 64 r = r := stored_of_length 64 r hlen
  refine ⟨_, _, send_recv_cmd_ok T fd b0 b1 b2 buf n w s1 s2 r hw hr
    (by rw [hst]; exact h0) (by rw [hst]; exact h1), ?_⟩
  simp [exchanges, exchange]

theorem issues_read_reg {σ : Type} (T : Transport σ) (hT : Answers T) (fd : Int)
    (reg : Byte) (buf : Option (List Byte)) (n : Nat) :
    Issues (read_reg T fd reg buf n) fd [(0x03, reg, 0x00)] :=
  issues_send_recv_cmd T hT fd 0x03 reg 0x00 buf n

theorem issues_read_reg16 {σ : Type} (T : Transport σ) (hT : Answers T) (e : Endian)
    (fd : Int) (reg : Byte) (v : Nat) :
    Issues (read_reg16 T e fd reg v) fd [(0x03, reg, 0x00)] :=
  issues_bind fd _ _ [(0x03, reg, 0x00)] []
    (issues_send_recv_cmd T hT fd 0x03 reg 0x00 _ 2) (fun _ => issues_pure fd _)

theorem issues_read_reg32 {σ : Type} (T : Transport σ) (hT : Answers T) (e : Endian)
    (fd : Int) (reg : Byte) (v : Nat) :
    Issues (read_reg32 T e fd reg v) fd [(0x03, reg, 0x00)] :=
  issues_bind fd _ _ [(0x03, reg, 0x00)] []
    (issues_send_recv_cmd T hT fd 0x03 reg 0x00 _ 4) (fun _ => issues_pure fd _)

theorem issues_print_prometheus_reg {σ : Type} (T : Transport σ) (hT : Answers T)
    (e : Endian) (fd : Int) (reg : Byte) (label : String) :
    Issues (print_prometheus_reg T e fd reg label) fd [(0x03, reg, 0x00)] :=
  issues_bind fd _ _ [(0x03, reg, 0x00)] []
    (issues_read_reg16 T hT e fd reg 0) (fun _ => issues_emit fd _)

theorem for_osel_unroll {σ α : Type} (body : Nat → α → Proc σ α) (st : α) :
    for_osel body 0 st =
      (body 0 st >>= fun s1 => body 1 s1 >>= fun s2 => body 2 s2 >>= fun s3 => pure s3) := by
  rw [for_osel]; simp only [show (0 : Nat) < 3 by decide, dite_true]
  congr 1; funext s1
  rw [for_osel]; simp only [show (0 + 1 : Nat) < 3 by decide, dite_true]
  congr 1; funext s2
  rw [for_osel]; simp only [show (0 + 1 + 1 : Nat) < 3 by decide, dite_true]
  congr 1; funext s3
  rw [for_osel]; simp

theorem issues_dump_powers_body {σ : Type} (T : Transport σ) (hT : Answers T) (e : Endian)
    (fd : Int) (osel : Nat) (st : Rails) :
    Issues (dump_powers_body T e fd osel st) fd
      [(0x02, 0x00, Fin.ofNat osel), (0x03, 0x8b, 0x00), (0x03, 0x8c, 0x00),
       (0x03, 0x96, 0x00)] :=
  issues_bind fd _ _ [_] [_, _, _] (issues_send_recv_cmd T hT fd 0x02 0x00 _ none 0) fun _ =>
    issues_bind fd _ _ [_] [_, _] (issues_read_reg32 T hT e fd 0x8b _) fun _ =>
      issues_bind fd _ _ [_] [_] (issues_read_reg32 T hT e fd 0x8c _) fun _ =>
        issues_bind fd _ _ [_] [] (issues_read_reg32 T hT e fd 0x96 _) fun _ =>
          issues_pure fd _

theorem issues_print_loop {σ : Type} (fd : Int) (f : Nat → Out) :
    Issues (for_osel (fun osel (_ : Unit) => (emit [f osel] : Proc σ Unit)) 0 ()) fd [] := by
  rw [for_osel_unroll]
  exact issues_bind fd _ _ [] [] (issues_emit fd _) fun _ =>
    issues_bind fd _ _ [] [] (issues_emit fd _) fun _ =>
      issues_bind fd _ _ [] [] (issues_emit fd _) fun _ => issues_pure fd _

theorem issues_then {σ α β : Type} (fd : Int) (m : Proc σ α) (f : α → Proc σ β)
    (p : List Req) (hm : Issues m fd p) (hf : ∀ a, Issues (f a) fd []) :
    Issues (m >>= f) fd p := by
  have h := issues_bind fd m f p [] hm hf
  rw [List.append_nil] at h
  exact h

theorem issues_after {σ α β : Type} (fd : Int) (m : Proc σ α) (f : α → Proc σ β)
    (q : List Req) (hm : Issues m fd []) (hf : ∀ a, Issues (f a) fd q) :
    Issues (m >>= f) fd q :=
  issues_bind fd m f [] q hm hf

theorem issues_dump_powers {σ : Type} (T : Transport σ) (hT : Answers T) (e : Endian)
    (fd : Int) : Issues (dump_powers T e fd) fd rail_requests := by
  unfold dump_powers
  rw [for_osel_unroll]
  have hloop : Issues
      (dump_powers_body T e fd 0
          { val := 0, volts := [0, 0, 0], amps := [0, 0, 0], watts := [0, 0, 0] } >>= fun s1 =>
        dump_powers_body T e fd 1 s1 >>= fun s2 =>
          dump_powers_body T e fd 2 s2 >>= fun s3 => pure s3) fd rail_requests :=
    issues_bind fd _ _ [_, _, _, _] [_, _, _, _, _, _, _, _]
      (issues_dump_powers_body T hT e fd 0 _) fun _ =>
        issues_bind fd _ _ [_, _, _, _] [_, _, _, _]
          (issues_dump_powers_body T hT e fd 1 _) fun _ =>
            issues_bind fd _ _ [_, _, _, _] []
              (issues_dump_powers_body T hT e fd 2 _) fun _ => issues_pure fd _
  refine issues_then fd _ _ _ hloop fun st => ?_
  refine issues_after fd _ _ _ (issues_emit fd _) fun _ => ?_
  refine issues_after fd _ _ _ (issues_print_loop fd _) fun _ => ?_
  refine issues_after fd _ _ _ (issues_emit fd _) fun _ => ?_
  refine issues_after fd _ _ _ (issues_print_loop fd _) fun _ => ?_
  refine issues_after fd _ _ _ (issues_emit fd _) fun _ => ?_
  exact issues_print_loop fd _

theorem issues_dump_names {σ : Type} (T : Transport σ) (hT : Answers T) (fd : Int) :
    Issues (dump_names T fd) fd [(0xfe, 0x03, 0x00), (0x03, 0x99, 0x00), (0x03, 0x9a, 0x00)] :=
  issues_bind fd _ _ [_] [_, _] (issues_send_recv_cmd T hT fd 0xfe 0x03 0x00 _ _) fun _ =>
    issues_bind fd _ _ [_] [_] (issues_read_reg T hT fd 0x99 _ _) fun _ =>
      issues_bind fd _ _ [_] [] (issues_read_reg T hT fd 0x9a _ _) fun _ => issues_emit fd _

theorem issues_dump_times {σ : Type} (T : Transport σ) (hT : Answers T) (e : Endian)
    (fd : Int) : Issues (dump_times T e fd) fd [(0x03, 0xd1, 0x00), (0x03, 0xd2, 0x00)] :=
  issues_bind fd _ _ [_] [_] (issues_read_reg32 T hT e fd 0xd1 _) fun _ =>
    issues_bind fd _ _ [_] [] (issues_read_reg32 T hT e fd 0xd2 _) fun _ => issues_emit fd _

theorem issues_dump_temps {σ : Type} (T : Transport σ) (hT : Answers T) (e : Endian)
    (fd : Int) : Issues (dump_temps T e fd) fd [(0x03, 0x8d, 0x00), (0x03, 0x8e, 0x00)] :=
  issues_after fd _ _ _ (issues_emit fd _) fun _ =>
    issues_bind fd _ _ [_] [_] (issues_print_prometheus_reg T hT e fd 0x8d _) fun _ =>
      issues_print_prometheus_reg T hT e fd 0x8e _

theorem issues_dump_fan {σ : Type} (T : Transport σ) (hT : Answers T) (e : Endian)
    (fd : Int) : Issues (dump_fan T e fd) fd [(0x03, 0x8d, 0x00)] :=
  issues_after fd _ _ _ (issues_emit fd _) fun _ =>
    issues_print_prometheus_reg T hT e fd 0x8d _

theorem issues_dump_global_power {σ : Type} (T : Transport σ) (hT : Answers T) (e : Endian)
    (fd : Int) :
    Issues (dump_global_power T e fd) fd [(0x03, 0x88, 0x00), (0x03, 0xee, 0x00)] :=
  issues_bind fd _ _ [_] [_] (issues_read_reg16 T hT e fd 0x88 _) fun _ =>
    issues_bind fd _ _ [_] [] (issues_read_reg16 T hT e fd 0xee _) fun _ => issues_emit fd _

/-- The exchanges of the pass up to and including the terminating command. -/
theorem issues_pass {σ : Type} (T : Transport σ) (hT : Answers T) (e : Endian) (fd : Int) :
    Issues
      (dump_names T fd >>= fun _ => dump_times T e fd >>= fun _ => dump_temps T e fd >>= fun _ =>
        dump_fan T e fd >>= fun _ => dump_global_power T e fd >>= fun _ =>
        dump_powers T e fd >>= fun _ => send_recv_cmd T fd 0x02 0x00 0x00 none 0)
      fd (head_requests ++ rail_requests ++ [(0x02, 0x00, 0x00)]) := by
  have h :=
    issues_bind fd _ _ _ _ (issues_dump_names T hT fd) fun _ =>
      issues_bind fd _ _ _ _ (issues_dump_times T hT e fd) fun _ =>
        issues_bind fd _ _ _ _ (issues_dump_temps T hT e fd) fun _ =>
          issues_bind fd _ _ _ _ (issues_dump_fan T hT e fd) fun _ =>
            issues_bind fd _ _ _ _ (issues_dump_global_power T hT e fd) fun _ =>
              issues_bind fd _ _ _ _ (issues_dump_powers T hT e fd) fun _ =>
                issues_send_recv_cmd T hT fd 0x02 0x00 0x00 none 0
  exact h

theorem main_pass_run {σ : Type} (T : Transport σ) (hT : Answers T) (e : Endian) (fd : Int)
    (hfd : fd ≠ -1) (w : World σ) :
    ∃ w1 : World σ, main_pass T e fd w = Res.ok 0 w1
      ∧ w1.trace = w.trace
          ++ exchanges fd (head_requests ++ rail_requests ++ [(0x02, 0x00, 0x00)])
          ++ [Syscall.close fd] := by
  obtain ⟨a, w1, h1, t1⟩ := issues_pass T hT e fd w
  refine ⟨{ w1 with trace := w1.trace ++ [Syscall.close fd] }, ?_, ?_⟩
  · have hm : main_pass T e fd =
        ((dump_names T fd >>= fun _ => dump_times T e fd >>= fun _ =>
            dump_temps T e fd >>= fun _ => dump_fan T e fd >>= fun _ =>
            dump_global_power T e fd >>= fun _ => dump_powers T e fd >>= fun _ =>
            send_recv_cmd T fd 0x02 0x00 0x00 none 0) >>= fun _ =>
          sys_close fd >>= fun _ => pure 0) := by
      simp only [main_pass, hfd, if_false, proc_bind_assoc]
    rw [hm, bind_ok _ _ w w1 a h1]
    rfl
  · simp [t1]

theorem requests_append (a b : List Syscall) : requests (a ++ b) = requests a ++ requests b := by
  simp [requests, List.filterMap_append]

theorem requests_exchanges (fd : Int) (qs : List Req) : requests (exchanges fd qs) = qs := by
  induction qs with
  | nil => rfl
  | cons q rest ih =>
    have : exchanges fd (q :: rest) = exchange fd q ++ exchanges fd rest := by
      simp [exchanges]
    rw [this, requests_append, ih]
    obtain ⟨b0, b1, b2⟩ := q
    simp [requests, exchange, request_eq]

theorem answers_psu : Answers psu := by
  intro s b0 b1 b2
  refine ⟨request b0 b1 b2, request b0 b1 b2, _, rfl, rfl, ?_, ?_, ?_⟩
  · simp [stored]
  · simp [stored, request_eq]
  · simp [stored, request_eq]

/-- C8: rail ordering.  Against a device that answers every exchange
correctly, `dump_powers` returns, and the requests it issues are exactly, for
rail 0, 1, 2 in that order, the select (0x02, 0x00, rail) followed at once by
the reads (0x03, 0x8b, 0x00), (0x03, 0x8c, 0x00), (0x03, 0x96, 0x00); each
request is one full write followed by one full read, and there is no other
system call.  So each triad of rail reads has exactly one select before it,
the select of its rail, with nothing in between. -/
theorem rail_ordering {σ : Type} (T : Transport σ) (hT : Answers T) (e : Endian) (fd : Int)
    (w : World σ) :
    ∃ w1 : World σ, dump_powers T e fd w = Res.ok () w1
      ∧ requests w1.trace = requests w.trace ++
          [(0x02, 0x00, 0), (0x03, 0x8b, 0x00), (0x03, 0x8c, 0x00), (0x03, 0x96, 0x00),
           (0x02, 0x00, 1), (0x03, 0x8b, 0x00), (0x03, 0x8c, 0x00), (0x03, 0x96, 0x00),
           (0x02, 0x00, 2), (0x03, 0x8b, 0x00), (0x03, 0x8c, 0x00), (0x03, 0x96, 0x00)]
      ∧ w1.trace = w.trace ++ exchanges fd rail_requests := by
  obtain ⟨a, w1, h1, t1⟩ := issues_dump_powers T hT e fd w
  refine ⟨w1, h1, ?_, t1⟩
  rw [t1, requests_append, requests_exchanges]
  rfl

/-- C8 on the example power supply, from a fresh world. -/
theorem rail_ordering_witness :
    ∃ w1 : World (List Byte), dump_powers psu Endian.little 3 (World.init []) = Res.ok () w1
      ∧ requests w1.trace =
          [(0x02, 0x00, 0), (0x03, 0x8b, 0x00), (0x03, 0x8c, 0x00), (0x03, 0x96, 0x00),
           (0x02, 0x00, 1), (0x03, 0x8b, 0x00), (0x03, 0x8c, 0x00), (0x03, 0x96, 0x00),
           (0x02, 0x00, 2), (0x03, 0x8b, 0x00), (0x03, 0x8c, 0x00), (0x03, 0x96, 0x00)] := by
  obtain ⟨w1, h, hq, _⟩ := rail_ordering psu answers_psu Endian.little 3 (World.init [])
  exact ⟨w1, h, hq⟩

theorem main_pass_requests {σ : Type} (T : Transport σ) (hT : Answers T) (e : Endian)
    (fd : Int) (hfd : fd ≠ -1) (w : World σ) :
    ∃ w1 : World σ, main_pass T e fd w = Res.ok 0 w1
      ∧ requests w1.trace =
          requests w.trace ++ (head_requests ++ rail_requests ++ [(0x02, 0x00, 0x00)]) := by
  obtain ⟨w1, h1, t1⟩ := main_pass_run T hT e fd hfd w
  refine ⟨w1, h1, ?_⟩
  rw [t1, requests_append, requests_append, requests_exchanges]
  simp [requests]

/-- C9, the claim as stated fails: on the example power supply the complete
pass issues 4 requests with opcode 0x02, not 3. -/
theorem full_pass_select_count_counterexample :
    ∃ w1 : World (List Byte), main_pass psu Endian.little 3 (World.init []) = Res.ok 0 w1
      ∧ (requests w1.trace).countP isSelect = 4
      ∧ ¬ (requests w1.trace).countP isSelect = 3 := by
  obtain ⟨w1, h1, hq⟩ :=
    main_pass_requests psu answers_psu Endian.little 3 (by decide) (World.init [])
  refine ⟨w1, h1, ?_, ?_⟩
  · rw [hq]; decide
  · rw [hq]; decide

/-- C9, amended: against a device that answers every exchange correctly, the
complete pass returns 0 and issues exactly 4 requests with opcode 0x02 (the
selects of rails 0, 1, 2 and the terminating command (0x02, 0x00, 0x00)) and
exactly 9 reads of the rail-scoped registers 0x8b, 0x8c, 0x96; the selects and
rail reads come in the order select, read, read, read for rail 0, 1, 2, then
the terminating command, which is the last request and has no read after it. -/
theorem full_pass_command_counts {σ : Type} (T : Transport σ) (hT : Answers T) (e : Endian)
    (fd : Int) (hfd : fd ≠ -1) (w : World σ) :
    ∃ (w1 : World σ) (qs : List Req), main_pass T e fd w = Res.ok 0 w1
      ∧ requests w1.trace = requests w.trace ++ qs
      ∧ qs.countP isSelect = 4
      ∧ qs.countP isRailRead = 9
      ∧ qs.filter (fun q => isSelect q || isRailRead q) =
          [(0x02, 0x00, 0), (0x03, 0x8b, 0x00), (0x03, 0x8c, 0x00), (0x03, 0x96, 0x00),
           (0x02, 0x00, 1), (0x03, 0x8b, 0x00), (0x03, 0x8c, 0x00), (0x03, 0x96, 0x00),
           (0x02, 0x00, 2), (0x03, 0x8b, 0x00), (0x03, 0x8c, 0x00), (0x03, 0x96, 0x00),
           (0x02, 0x00, 0x00)]
      ∧ qs.getLast? = some (0x02, 0x00, 0x00) := by
  obtain ⟨w1, h1, hq⟩ := main_pass_requests T hT e fd hfd w
  exact ⟨w1, _, h1, hq, by decide, by decide, by decide, by decide⟩

/-- C9 amended, on the example power supply from a fresh world. -/
theorem full_pass_command_counts_witness :
    ∃ (w1 : World (List Byte)) (qs : List Req),
      main_pass psu Endian.little 3 (World.init []) = Res.ok 0 w1
        ∧ requests w1.trace = qs
        ∧ qs.countP isSelect = 4
        ∧ qs.countP isRailRead = 9 := by
  obtain ⟨w1, qs, h1, hq, h4, h9, _⟩ :=
    full_pass_command_counts psu answers_psu Endian.little 3 (by decide) (World.init [])
  exact ⟨w1, qs, h1, hq, h4, h9⟩

/-! ## Register reads, value by value -/

theorem drop_take_two (r : List Byte) (h : r.length = 64) :
    (r.drop 2).take 2 = [r.getD 2 0, r.getD 3 0] := by
  rcases r with _ | ⟨a, _ | ⟨b, _ | ⟨c, _ | ⟨d, t⟩⟩⟩⟩ <;> simp at h ⊢

theorem objBytes_length (e : Endian) (n v : Nat) : (objBytes e n v).length = n := by
  cases e <;> simp [objBytes]

theorem read_reg16_ok {σ : Type} (T : Transport σ) (e : Endian) (fd : Int) (reg : Byte)
    (v : Nat) (w : World σ) (s1 s2 : σ) (r : List Byte)
    (hw : T.write w.dev (request 0x03 reg 0x00) = (65, s1))
    (hr : T.read s1 64 = (64, r, s2)) (hlen : r.length = 64)
    (h0 : r.getD 0 0 = 0x03) (h1 : r.getD 1 0 = reg) :
    read_reg16 T e fd reg v w =
      Res.ok (objValue e [r.getD 2 0, r.getD 3 0])
        { dev := s2,
          trace := w.trace ++
            [Syscall.write fd (request 0x03 reg 0x00) 65, Syscall.read fd 64 64],
          out := w.out, err := w.err } := by
  have hst : stored 64 r = r := stored_of_length 64 r hlen
  have hok := send_recv_cmd_ok T fd 0x03 reg 0x00 (some (objBytes e 2 v)) 2 w s1 s2 r hw hr
    (by rw [hst]; exact h0) (by rw [hst]; exact h1)
  rw [hst] at hok
  unfold read_reg16
  rw [bind_ok _ _ _ _ _ hok, pure_apply]
  have hp : payload (some (objBytes e 2 v)) 2 r = some [r.getD 2 0, r.getD 3 0] := by
    simp only [payload, memcpy, show (2 : Nat) > 0 by decide, if_true,
      show ¬ (2 : Nat) > 64 - 2 by decide, if_false]
    rw [drop_take_two r hlen, List.drop_of_length_le (by rw [objBytes_length])]
    rfl
  rw [hp]
  rfl

theorem objValue_little_word (a b : Byte) (v : Nat)
    (ha : a.val = v % 256) (hb : b.val = v / 256) : objValue Endian.little [a, b] = v := by
  simp only [objValue, List.foldr, ha, hb]
  omega

theorem print_prometheus_reg_little {σ : Type} (T : Transport σ) (fd : Int) (reg : Byte)
    (label : String) (w : World σ) (s1 s2 : σ) (r : List Byte) (v : Nat)
    (hw : T.write w.dev (request 0x03 reg 0x00) = (65, s1))
    (hr : T.read s1 64 = (64, r, s2)) (hc : Carries r 0x03 reg v) :
    print_prometheus_reg T Endian.little fd reg label w =
      Res.ok ()
        { dev := s2,
          trace := w.trace ++
            [Syscall.write fd (request 0x03 reg 0x00) 65, Syscall.read fd 64 64],
          out := w.out ++ [Out.gauge label (mkv v)], err := w.err } := by
  obtain ⟨hlen, h0, h1, h2, h3⟩ := hc
  unfold print_prometheus_reg
  rw [bind_ok _ _ _ _ _ (read_reg16_ok T Endian.little fd reg 0 w s1 s2 r hw hr hlen h0 h1),
    objValue_little_word _ _ v h2 h3]
  rfl

theorem mkv_F841 : mkv 0xF841 = 65 / 2 := by
  have hv : mkv_v 0xF841 = 65 := by decide
  have hp : mkv_p 0xF841 = -1 := by decide
  rw [mkv, hv, hp]; norm_num

/-- The temperature step on a little-endian host (the byte order of the wire
format).  For all words `v1`, `v2` (16-bit, as two bytes hold them): if the device answers the
request (0x03, 0x8d, 0x00) with a valid 64-byte response whose bytes 2 and 3
hold `v1`, low byte first, and then the request (0x03, 0x8e, 0x00) with one
that holds `v2`, then `dump_temps` returns and prints `mkv v1` as the value
of temperature sensor 1 and `mkv v2` as the value of sensor 2. -/
theorem temperature_end_to_end {σ : Type} (T : Transport σ) (fd : Int) (w : World σ)
    (v1 v2 : Nat) (s1 s2 s3 s4 : σ) (r1 r2 : List Byte)
    (hw1 : T.write w.dev (request 0x03 0x8d 0x00) = (65, s1))
    (hr1 : T.read s1 64 = (64, r1, s2)) (hc1 : Carries r1 0x03 0x8d v1)
    (hw2 : T.write s2 (request 0x03 0x8e 0x00) = (65, s3))
    (hr2 : T.read s3 64 = (64, r2, s4)) (hc2 : Carries r2 0x03 0x8e v2) :
    ∃ w1 : World σ, dump_temps T Endian.little fd w = Res.ok () w1
      ∧ w1.out = w.out ++
          [Out.line "# HELP corsair_temperature_celsius Temperature in seconds",
           Out.line "# TYPE corsair_temperature_celsius gauge",
           Out.gauge "corsair_temperature_celsius\x7bsensor=\"1\"\x7d" (mkv v1),
           Out.gauge "corsair_temperature_celsius\x7bsensor=\"2\"\x7d" (mkv v2)] := by
  have h : dump_temps T Endian.little fd w =
      Res.ok ()
        { dev := s4,
          trace := w.trace ++
            [Syscall.write fd (request 0x03 0x8d 0x00) 65, Syscall.read fd 64 64] ++
            [Syscall.write fd (request 0x03 0x8e 0x00) 65, Syscall.read fd 64 64],
          out := w.out ++
            [Out.line "# HELP corsair_temperature_celsius Temperature in seconds",
             Out.line "# TYPE corsair_temperature_celsius gauge"] ++
            [Out.gauge "corsair_temperature_celsius\x7bsensor=\"1\"\x7d" (mkv v1)] ++
            [Out.gauge "corsair_temperature_celsius\x7bsensor=\"2\"\x7d" (mkv v2)],
          err := w.err } := by
    unfold dump_temps
    rw [bind_ok _ _ w _ () (emit_apply _ w)]
    refine (bind_ok _ _ _ _ _
      (print_prometheus_reg_little T fd 0x8d _ _ s1 s2 r1 v1 ?_ hr1 hc1)).trans ?_
    · exact hw1
    · exact print_prometheus_reg_little T fd 0x8e _ _ s3 s4 r2 v2 hw2 hr2 hc2
  exact ⟨_, h, by simp⟩

/-- The temperature step of a little-endian host on the example power supply:
register 0x8d holds 0xF841 (mantissa 65,
exponent -1) and sensor 1 reads 32.5; register 0x8e holds 0xF12C and sensor 2
reads `mkv 0xF12C`. -/
theorem temperature_end_to_end_witness :
    ∃ w1 : World (List Byte), dump_temps psu Endian.little 3 (World.init []) = Res.ok () w1
      ∧ w1.out =
          [Out.line "# HELP corsair_temperature_celsius Temperature in seconds",
           Out.line "# TYPE corsair_temperature_celsius gauge",
           Out.gauge "corsair_temperature_celsius\x7bsensor=\"1\"\x7d" (65 / 2),
           Out.gauge "corsair_temperature_celsius\x7bsensor=\"2\"\x7d" (mkv 0xF12C)] := by
  have h := temperature_end_to_end psu 3 (World.init []) 0xF841 0xF12C
    (request 0x03 0x8d 0x00) (request 0x03 0x8d 0x00)
    (request 0x03 0x8e 0x00) (request 0x03 0x8e 0x00)
    (response 0x03 0x8d 0x41 0xF8) (response 0x03 0x8e 0x2c 0xf1)
    rfl rfl ⟨by decide, by decide, by decide, by decide, by decide⟩
    rfl rfl ⟨by decide, by decide, by decide, by decide, by decide⟩
  rw [mkv_F841] at h
  exact h

/-! ## Host byte order -/

theorem drop_take_four (r : List Byte) (h : r.length = 64) :
    (r.drop 2).take 4 = [r.getD 2 0, r.getD 3 0, r.getD 4 0, r.getD 5 0] := by
  rcases r with _ | ⟨a, _ | ⟨b, _ | ⟨c, _ | ⟨d, _ | ⟨e, _ | ⟨f, t⟩⟩⟩⟩⟩⟩ <;> simp at h ⊢

theorem read_reg16_exch {σ : Type} (T : Transport σ) (e : Endian) (fd : Int) (reg : Byte)
    (v : Nat) (w : World σ) (s2 : σ) (r : List Byte) (h : Exch T w.dev 0x03 reg 0x00 r s2) :
    read_reg16 T e fd reg v w =
      Res.ok (word16 e r)
        { dev := s2, trace := w.trace ++ exchange fd (0x03, reg, 0x00),
          out := w.out, err := w.err } := by
  obtain ⟨s1, hw, hr, hlen, h0, h1⟩ := h
  exact read_reg16_ok T e fd reg v w s1 s2 r hw hr hlen h0 h1

theorem read_reg32_exch {σ : Type} (T : Transport σ) (e : Endian) (fd : Int) (reg : Byte)
    (v : Nat) (w : World σ) (s2 : σ) (r : List Byte) (h : Exch T w.dev 0x03 reg 0x00 r s2) :
    read_reg32 T e fd reg v w =
      Res.ok (word32 e r)
        { dev := s2, trace := w.trace ++ exchange fd (0x03, reg, 0x00),
          out := w.out, err := w.err } := by
  obtain ⟨s1, hw, hr, hlen, h0, h1⟩ := h
  have hst : stored 64 r = r := stored_of_length 64 r hlen
  have hok := send_recv_cmd_ok T fd 0x03 reg 0x00 (some (objBytes e 4 v)) 4 w s1 s2 r hw hr
    (by rw [hst]; exact h0) (by rw [hst]; exact h1)
  rw [hst] at hok
  unfold read_reg32
  rw [bind_ok _ _ _ _ _ hok, pure_apply]
  have hp : payload (some (objBytes e 4 v)) 4 r =
      some [r.getD 2 0, r.getD 3 0, r.getD 4 0, r.getD 5 0] := by
    simp only [payload, memcpy, show (4 : Nat) > 0 by decide, if_true,
      show ¬ (4 : Nat) > 64 - 2 by decide, if_false]
    rw [drop_take_four r hlen, List.drop_of_length_le (by rw [objBytes_length])]
    rfl
  rw [hp]
  rfl

theorem exch_scripted (b0 b1 b2 : Byte) (r : List Byte) (hlen : r.length = 64)
    (h0 : r.getD 0 0 = b0) (h1 : r.getD 1 0 = b1) :
    Exch (scripted 65 64 r) () b0 b1 b2 r () :=
  ⟨(), rfl, rfl, hlen, h0, h1⟩

/-- C11, the code at a concrete response: the device answers the read of
register 0x8d with a valid response whose payload starts 0x41 0xF8 0x00 0x00.
`read_reg16` returns 0xF841 on a little-endian host and 0x41F8 on a big-endian
host; `read_reg32` returns 0x0000F841 on a little-endian host and 0x41F80000
on a big-endian host.  The values returned depend on the host byte order. -/
theorem read_reg_depends_on_host_byte_order :
    read_reg16 (scripted 65 64 (response 0x03 0x8d 0x41 0xF8)) Endian.little 3 0x8d 0
        (World.init ()) =
      Res.ok 0xF841
        { dev := (), trace := exchange 3 (0x03, 0x8d, 0x00), out := [], err := [] }
    ∧ read_reg16 (scripted 65 64 (response 0x03 0x8d 0x41 0xF8)) Endian.big 3 0x8d 0
        (World.init ()) =
      Res.ok 0x41F8
        { dev := (), trace := exchange 3 (0x03, 0x8d, 0x00), out := [], err := [] }
    ∧ read_reg32 (scripted 65 64 (response 0x03 0x8d 0x41 0xF8)) Endian.little 3 0x8d 0
        (World.init ()) =
      Res.ok 0x0000F841
        { dev := (), trace := exchange 3 (0x03, 0x8d, 0x00), out := [], err := [] }
    ∧ read_reg32 (scripted 65 64 (response 0x03 0x8d 0x41 0xF8)) Endian.big 3 0x8d 0
        (World.init ()) =
      Res.ok 0x41F80000
        { dev := (), trace := exchange 3 (0x03, 0x8d, 0x00), out := [], err := [] } := by
  have hx : Exch (scripted 65 64 (response 0x03 0x8d 0x41 0xF8)) (World.init ()).dev
      0x03 0x8d 0x00 (response 0x03 0x8d 0x41 0xF8) () :=
    exch_scripted 0x03 0x8d 0x00 _ (by decide) (by decide) (by decide)
  refine ⟨?_, ?_, ?_, ?_⟩
  · rw [read_reg16_exch _ Endian.little 3 0x8d 0 _ _ _ hx]; rfl
  · rw [read_reg16_exch _ Endian.big 3 0x8d 0 _ _ _ hx]; rfl
  · rw [read_reg32_exch _ Endian.little 3 0x8d 0 _ _ _ hx]; rfl
  · rw [read_reg32_exch _ Endian.big 3 0x8d 0 _ _ _ hx]; rfl

/-- C12: fixed pass order.  Against a device that answers every exchange
correctly, the pass of `main` returns 0 and its requests are, in this order:
(0xfe, 0x03, 0x00) and the reads of 0x99 and 0x9a; the reads of 0xd1 and 0xd2;
the reads of 0x8d and 0x8e; the one read of `dump_fan`; the reads of 0x88 and
0xee; the twelve per-rail requests; last the terminating command
(0x02, 0x00, 0x00).  Each request is one full write and one full read, the
only system call after the terminating exchange is `close(fd)`, and the list
is the same for every such device, host byte order and starting world. -/
theorem pass_order {σ : Type} (T : Transport σ) (hT : Answers T) (e : Endian) (fd : Int)
    (hfd : fd ≠ -1) (w : World σ) :
    ∃ w1 : World σ, main_pass T e fd w = Res.ok 0 w1
      ∧ requests w1.trace = requests w.trace ++
          [(0xfe, 0x03, 0x00), (0x03, 0x99, 0x00), (0x03, 0x9a, 0x00),
           (0x03, 0xd1, 0x00), (0x03, 0xd2, 0x00),
           (0x03, 0x8d, 0x00), (0x03, 0x8e, 0x00),
           (0x03, 0x8d, 0x00),
           (0x03, 0x88, 0x00), (0x03, 0xee, 0x00),
           (0x02, 0x00, 0), (0x03, 0x8b, 0x00), (0x03, 0x8c, 0x00), (0x03, 0x96, 0x00),
           (0x02, 0x00, 1), (0x03, 0x8b, 0x00), (0x03, 0x8c, 0x00), (0x03, 0x96, 0x00),
           (0x02, 0x00, 2), (0x03, 0x8b, 0x00), (0x03, 0x8c, 0x00), (0x03, 0x96, 0x00),
           (0x02, 0x00, 0x00)]
      ∧ w1.trace = w.trace ++
          exchanges fd
            [(0xfe, 0x03, 0x00), (0x03, 0x99, 0x00), (0x03, 0x9a, 0x00),
             (0x03, 0xd1, 0x00), (0x03, 0xd2, 0x00),
             (0x03, 0x8d, 0x00), (0x03, 0x8e, 0x00),
             (0x03, 0x8d, 0x00),
             (0x03, 0x88, 0x00), (0x03, 0xee, 0x00),
             (0x02, 0x00, 0), (0x03, 0x8b, 0x00), (0x03, 0x8c, 0x00), (0x03, 0x96, 0x00),
             (0x02, 0x00, 1), (0x03, 0x8b, 0x00), (0x03, 0x8c, 0x00), (0x03, 0x96, 0x00),
             (0x02, 0x00, 2), (0x03, 0x8b, 0x00), (0x03, 0x8c, 0x00), (0x03, 0x96, 0x00),
             (0x02, 0x00, 0x00)]
          ++ [Syscall.close fd] := by
  obtain ⟨w1, h1, t1⟩ := main_pass_run T hT e fd hfd w
  refine ⟨w1, h1, ?_, t1⟩
  rw [t1, requests_append, requests_append, requests_exchanges]
  simp [requests, head_requests, rail_requests]

/-- C12 on the example power supply, from a fresh world: the 23 requests of
the pass in order, then `close`. -/
theorem pass_order_witness :
    ∃ w1 : World (List Byte), main_pass psu Endian.little 3 (World.init []) = Res.ok 0 w1
      ∧ requests w1.trace =
          [(0xfe, 0x03, 0x00), (0x03, 0x99, 0x00), (0x03, 0x9a, 0x00),
           (0x03, 0xd1, 0x00), (0x03, 0xd2, 0x00),
           (0x03, 0x8d, 0x00), (0x03, 0x8e, 0x00),
           (0x03, 0x8d, 0x00),
           (0x03, 0x88, 0x00), (0x03, 0xee, 0x00),
           (0x02, 0x00, 0), (0x03, 0x8b, 0x00), (0x03, 0x8c, 0x00), (0x03, 0x96, 0x00),
           (0x02, 0x00, 1), (0x03, 0x8b, 0x00), (0x03, 0x8c, 0x00), (0x03, 0x96, 0x00),
           (0x02, 0x00, 2), (0x03, 0x8b, 0x00), (0x03, 0x8c, 0x00), (0x03, 0x96, 0x00),
           (0x02, 0x00, 0x00)]
      ∧ w1.trace.getLast? = some (Syscall.close 3) := by
  obtain ⟨w1, h, hq, ht⟩ := pass_order psu answers_psu Endian.little 3 (by decide) (World.init [])
  refine ⟨w1, h, hq, ?_⟩
  rw [ht]
  simp

/-! ## Release of the descriptor -/

theorem unclosed_pure {σ α : Type} (a : α) : Unclosed (pure a : Proc σ α) := by
  intro w
  refine ⟨⟨[], by simp [pure_apply, Res.world], by simp⟩, ?_⟩
  intro s w1 h
  rw [pure_apply] at h
  cases h

theorem unclosed_emit {σ : Type} (o : List Out) : Unclosed (emit o : Proc σ Unit) := by
  intro w
  refine ⟨⟨[], by simp [emit_apply, Res.world], by simp⟩, ?_⟩
  intro s w1 h
  rw [emit_apply] at h
  cases h

theorem unclosed_bind {σ α β : Type} (m : Proc σ α) (f : α → Proc σ β)
    (hm : Unclosed m) (hf : ∀ a, Unclosed (f a)) : Unclosed (m >>= f) := by
  intro w
  obtain ⟨⟨evs, ht, hc⟩, hs⟩ := hm w
  cases h : m w with
  | ok a w1 =>
    rw [h] at ht
    obtain ⟨⟨evs2, ht2, hc2⟩, hs2⟩ := hf a w1
    rw [bind_ok m f w w1 a h]
    refine ⟨⟨evs ++ evs2, ?_, ?_⟩, hs2⟩
    · rw [ht2]
      simp only [Res.world] at ht
      rw [ht, List.append_assoc]
    · intro c hmem
      rcases List.mem_append.mp hmem with h1 | h2
      · exact hc c h1
      · exact hc2 c h2
  | exit s0 w1 =>
    rw [h] at ht
    rw [bind_exit m f w w1 s0 h]
    refine ⟨⟨evs, ht, hc⟩, ?_⟩
    intro s w2 he
    cases he
    exact hs s0 w1 h

theorem unclosed_send_recv_cmd {σ : Type} (T : Transport σ) (fd : Int) (b0 b1 b2 : Byte)
    (buf : Option (List Byte)) (n : Nat) : Unclosed (send_recv_cmd T fd b0 b1 b2 buf n) := by
  intro w
  have hw : T.write w.dev (request b0 b1 b2) =
      ((T.write w.dev (request b0 b1 b2)).1, (T.write w.dev (request b0 b1 b2)).2) := rfl
  by_cases h65 : (T.write w.dev (request b0 b1 b2)).1 = 65
  · rw [h65] at hw
    have hr : T.read (T.write w.dev (request b0 b1 b2)).2 64 =
        ((T.read (T.write w.dev (request b0 b1 b2)).2 64).1,
         (T.read (T.write w.dev (request b0 b1 b2)).2 64).2.1,
         (T.read (T.write w.dev (request b0 b1 b2)).2 64).2.2) := rfl
    by_cases h64 : (T.read (T.write w.dev (request b0 b1 b2)).2 64).1 = 64
    · rw [h64] at hr
      by_cases hne :
          (stored 64 (T.read (T.write w.dev (request b0 b1 b2)).2 64).2.1).getD 0 0 ≠ b0
          ∨ (stored 64 (T.read (T.write w.dev (request b0 b1 b2)).2 64).2.1).getD 1 0 ≠ b1
      · rw [send_recv_cmd_mismatch T fd b0 b1 b2 buf n w _ _ _ hw hr hne]
        refine ⟨⟨_, rfl, ?_⟩, ?_⟩
        · intro c hc
          simp at hc
          rcases hc with h | h <;> subst h <;> rfl
        · intro s w1 h
          cases h
          rfl
      · have h0 := not_not.mp (not_or.mp hne).1
        have h1 := not_not.mp (not_or.mp hne).2
        rw [send_recv_cmd_ok T fd b0 b1 b2 buf n w _ _ _ hw hr h0 h1]
        refine ⟨⟨_, rfl, ?_⟩, ?_⟩
        · intro c hc
          simp at hc
          rcases hc with h | h <;> subst h <;> rfl
        · intro s w1 h
          cases h
    · rw [send_recv_cmd_short_read T fd b0 b1 b2 buf n w _ _ _ _ hw hr h64]
      refine ⟨⟨_, rfl, ?_⟩, ?_⟩
      · intro c hc
        simp at hc
        rcases hc with h | h <;> subst h <;> rfl
      · intro s w1 h
        cases h
        rfl
  · rw [send_recv_cmd_short_write T fd b0 b1 b2 buf n w _ _ hw h65]
    refine ⟨⟨_, rfl, ?_⟩, ?_⟩
    · intro c hc
      simp at hc
      subst hc
      rfl
    · intro s w1 h
      cases h
      rfl

theorem unclosed_read_reg16 {σ : Type} (T : Transport σ) (e : Endian) (fd : Int) (reg : Byte)
    (v : Nat) : Unclosed (read_reg16 T e fd reg v) :=
  unclosed_bind _ _ (unclosed_send_recv_cmd T fd 0x03 reg 0x00 _ 2) fun _ => unclosed_pure _

theorem unclosed_read_reg32 {σ : Type} (T : Transport σ) (e : Endian) (fd : Int) (reg : Byte)
    (v : Nat) : Unclosed (read_reg32 T e fd reg v) :=
  unclosed_bind _ _ (unclosed_send_recv_cmd T fd 0x03 reg 0x00 _ 4) fun _ => unclosed_pure _

theorem unclosed_print_prometheus_reg {σ : Type} (T : Transport σ) (e : Endian) (fd : Int)
    (reg : Byte) (label : String) : Unclosed (print_prometheus_reg T e fd reg label) :=
  unclosed_bind _ _ (unclosed_read_reg16 T e fd reg 0) fun _ => unclosed_emit _

theorem unclosed_dump_names {σ : Type} (T : Transport σ) (fd : Int) :
    Unclosed (dump_names T fd) :=
  unclosed_bind _ _ (unclosed_send_recv_cmd T fd 0xfe 0x03 0x00 _ _) fun _ =>
    unclosed_bind _ _ (unclosed_send_recv_cmd T fd 0x03 0x99 0x00 _ _) fun _ =>
      unclosed_bind _ _ (unclosed_send_recv_cmd T fd 0x03 0x9a 0x00 _ _) fun _ =>
        unclosed_emit _

theorem unclosed_dump_times {σ : Type} (T : Transport σ) (e : Endian) (fd : Int) :
    Unclosed (dump_times T e fd) :=
  unclosed_bind _ _ (unclosed_read_reg32 T e fd 0xd1 _) fun _ =>
    unclosed_bind _ _ (unclosed_read_reg32 T e fd 0xd2 _) fun _ => unclosed_emit _

theorem unclosed_dump_temps {σ : Type} (T : Transport σ) (e : Endian) (fd : Int) :
    Unclosed (dump_temps T e fd) :=
  unclosed_bind _ _ (unclosed_emit _) fun _ =>
    unclosed_bind _ _ (unclosed_print_prometheus_reg T e fd 0x8d _) fun _ =>
      unclosed_print_prometheus_reg T e fd 0x8e _

theorem unclosed_dump_fan {σ : Type} (T : Transport σ) (e : Endian) (fd : Int) :
    Unclosed (dump_fan T e fd) :=
  unclosed_bind _ _ (unclosed_emit _) fun _ => unclosed_print_prometheus_reg T e fd 0x8d _

theorem unclosed_dump_global_power {σ : Type} (T : Transport σ) (e : Endian) (fd : Int) :
    Unclosed (dump_global_power T e fd) :=
  unclosed_bind _ _ (unclosed_read_reg16 T e fd 0x88 _) fun _ =>
    unclosed_bind _ _ (unclosed_read_reg16 T e fd 0xee _) fun _ => unclosed_emit _

theorem unclosed_dump_powers_body {σ : Type} (T : Transport σ) (e : Endian) (fd : Int)
    (osel : Nat) (st : Rails) : Unclosed (dump_powers_body T e fd osel st) :=
  unclosed_bind _ _ (unclosed_send_recv_cmd T fd 0x02 0x00 _ none 0) fun _ =>
    unclosed_bind _ _ (unclosed_read_reg32 T e fd 0x8b _) fun _ =>
      unclosed_bind _ _ (unclosed_read_reg32 T e fd 0x8c _) fun _ =>
        unclosed_bind _ _ (unclosed_read_reg32 T e fd 0x96 _) fun _ => unclosed_pure _

theorem unclosed_for_osel {σ α : Type} (body : Nat → α → Proc σ α)
    (hb : ∀ osel st, Unclosed (body osel st)) (st : α) : Unclosed (for_osel body 0 st) := by
  rw [for_osel_unroll]
  exact unclosed_bind _ _ (hb 0 st) fun _ =>
    unclosed_bind _ _ (hb 1 _) fun _ =>
      unclosed_bind _ _ (hb 2 _) fun _ => unclosed_pure _

theorem unclosed_dump_powers {σ : Type} (T : Transport σ) (e : Endian) (fd : Int) :
    Unclosed (dump_powers T e fd) :=
  unclosed_bind _ _ (unclosed_for_osel _ (unclosed_dump_powers_body T e fd) _) fun _ =>
    unclosed_bind _ _ (unclosed_emit _) fun _ =>
      unclosed_bind _ _ (unclosed_for_osel _ (fun _ _ => unclosed_emit _) ()) fun _ =>
        unclosed_bind _ _ (unclosed_emit _) fun _ =>
          unclosed_bind _ _ (unclosed_for_osel _ (fun _ _ => unclosed_emit _) ()) fun _ =>
            unclosed_bind _ _ (unclosed_emit _) fun _ =>
              unclosed_for_osel _ (fun _ _ => unclosed_emit _) ()

/-- The pass of `main` up to and including the terminating command. -/
theorem main_pass_eq {σ : Type} (T : Transport σ) (e : Endian) (fd : Int) (hfd : fd ≠ -1) :
    main_pass T e fd =
      ((dump_names T fd >>= fun _ => dump_times T e fd >>= fun _ =>
          dump_temps T e fd >>= fun _ => dump_fan T e fd >>= fun _ =>
          dump_global_power T e fd >>= fun _ => dump_powers T e fd >>= fun _ =>
          send_recv_cmd T fd 0x02 0x00 0x00 none 0) >>= fun _ =>
        sys_close fd >>= fun _ => pure 0) := by
  simp only [main_pass, hfd, if_false, proc_bind_assoc]

theorem unclosed_pass {σ : Type} (T : Transport σ) (e : Endian) (fd : Int) :
    Unclosed
      (dump_names T fd >>= fun _ => dump_times T e fd >>= fun _ =>
        dump_temps T e fd >>= fun _ => dump_fan T e fd >>= fun _ =>
        dump_global_power T e fd >>= fun _ => dump_powers T e fd >>= fun _ =>
        send_recv_cmd T fd 0x02 0x00 0x00 none 0) :=
  unclosed_bind _ _ (unclosed_dump_names T fd) fun _ =>
    unclosed_bind _ _ (unclosed_dump_times T e fd) fun _ =>
      unclosed_bind _ _ (unclosed_dump_temps T e fd) fun _ =>
        unclosed_bind _ _ (unclosed_dump_fan T e fd) fun _ =>
          unclosed_bind _ _ (unclosed_dump_global_power T e fd) fun _ =>
            unclosed_bind _ _ (unclosed_dump_powers T e fd) fun _ =>
              unclosed_send_recv_cmd T fd 0x02 0x00 0x00 none 0

theorem main_pass_fatal {σ : Type} (T : Transport σ) (e : Endian) (fd : Int) (w : World σ)
    (s : Int) (w1 : World σ) (h : main_pass T e fd w = Res.exit s w1) :
    s = 1 ∧ ∃ evs : List Syscall, w1.trace = w.trace ++ evs ∧ ∀ c ∈ evs, isClose c = false := by
  by_cases hfd : fd = -1
  · simp [main_pass, hfd, pure_apply] at h
  · rw [main_pass_eq T e fd hfd] at h
    obtain ⟨⟨evs, ht, hc⟩, hs⟩ := unclosed_pass T e fd w
    cases hp : (dump_names T fd >>= fun _ => dump_times T e fd >>= fun _ =>
        dump_temps T e fd >>= fun _ => dump_fan T e fd >>= fun _ =>
        dump_global_power T e fd >>= fun _ => dump_powers T e fd >>= fun _ =>
        send_recv_cmd T fd 0x02 0x00 0x00 none 0) w with
    | ok a w2 =>
      rw [bind_ok _ _ w w2 a hp] at h
      cases h
    | exit s0 w2 =>
      rw [bind_exit _ _ w w2 s0 hp] at h
      cases h
      rw [hp] at ht
      exact ⟨hs s w1 hp, evs, ht, hc⟩

theorem main_pass_normal {σ : Type} (T : Transport σ) (e : Endian) (fd : Int) (hfd : fd ≠ -1)
    (w : World σ) (a : Int) (w1 : World σ) (h : main_pass T e fd w = Res.ok a w1) :
    a = 0 ∧ ∃ evs : List Syscall, w1.trace = w.trace ++ evs ++ [Syscall.close fd]
      ∧ ∀ c ∈ evs, isClose c = false := by
  rw [main_pass_eq T e fd hfd] at h
  obtain ⟨⟨evs, ht, hc⟩, _⟩ := unclosed_pass T e fd w
  cases hp : (dump_names T fd >>= fun _ => dump_times T e fd >>= fun _ =>
      dump_temps T e fd >>= fun _ => dump_fan T e fd >>= fun _ =>
      dump_global_power T e fd >>= fun _ => dump_powers T e fd >>= fun _ =>
      send_recv_cmd T fd 0x02 0x00 0x00 none 0) w with
  | ok b w2 =>
    rw [bind_ok _ _ w w2 b hp] at h
    rw [hp] at ht
    simp only [Res.world] at ht
    have h2 : (sys_close fd >>= fun _ => (pure 0 : Proc σ Int)) w2 =
        Res.ok 0 { w2 with trace := w2.trace ++ [Syscall.close fd] } := rfl
    rw [h2] at h
    cases h
    exact ⟨rfl, evs, by simp [ht], hc⟩
  | exit s0 w2 =>
    rw [bind_exit _ _ w w2 s0 hp] at h
    cases h

theorem try_open_device_rejects {σ : Type} (fs : String → Node) (name : String)
    (report_errors : Bool) (w : World σ) (hopen : (fs name).openRet ≠ -1)
    (hno : ¬ ((fs name).ioctlRet = 0 ∧ (fs name).vendor = 0x1b1c
      ∧ (fs name).product ∈ products)) :
    ∃ w1 : World σ, try_open_device fs name report_errors w = Res.ok (-1) w1
      ∧ w1.trace = w.trace ++ [Syscall.open name (fs name).openRet,
          Syscall.ioctl (fs name).openRet (fs name).ioctlRet,
          Syscall.close (fs name).openRet] := by
  by_cases hq : (fs name).ioctlRet = 0
  · have hno2 : ¬ ((fs name).vendor = 0x1b1c ∧ (fs name).product ∈ products) :=
      fun h => hno ⟨hq, h⟩
    refine ⟨_, try_open_device_reject fs name report_errors w hopen hq hno2, ?_⟩
    simp [hq]
  · cases report_errors
    · refine ⟨⟨w.dev, w.trace ++ [Syscall.open name (fs name).openRet,
          Syscall.ioctl (fs name).openRet (fs name).ioctlRet,
          Syscall.close (fs name).openRet], w.out, w.err ++ [Diag.rawinfoFailed]⟩, ?_, rfl⟩
      simp [try_open_device, bind, Proc.bind, sys_open, sys_ioctl, hopen, hq, pure, sys_close,
        complain]
    · refine ⟨⟨w.dev, w.trace ++ [Syscall.open name (fs name).openRet,
          Syscall.ioctl (fs name).openRet (fs name).ioctlRet,
          Syscall.close (fs name).openRet], w.out,
          w.err ++ [Diag.rawinfoFailed, Diag.unexpectedDevice 0 0]⟩, ?_, rfl⟩
      simp [try_open_device, bind, Proc.bind, sys_open, sys_ioctl, hopen, hq, pure, sys_close,
        complain]

theorem main_with_path {σ : Type} (T : Transport σ) (e : Endian) (fs : String → Node)
    (prog path : String) (hpath : path.get 0 ≠ '-') :
    main T e fs [prog, path] = (try_open_device fs path true >>= fun fd => main_pass T e fd) := by
  simp [main, hpath]

/-- C13, the claim as stated fails: `main` is run on `/dev/hidraw0`, an
RM750i that `open` returns as descriptor 3 and whose first `write` returns 64.
The process ends in `exit(1)` with the short write as its last system call:
descriptor 3 was opened and no `close(3)` was made. -/
theorem handle_release_counterexample :
    main (scripted 64 64 []) Endian.little (fun _ => Node.mk 3 0 0x1b1c 0x1c0b 0)
        ["corsairmi", "/dev/hidraw0"] (World.init ()) =
      Res.exit 1
        { dev := (),
          trace := [Syscall.open "/dev/hidraw0" 3, Syscall.ioctl 3 0,
            Syscall.write 3 (request 0xfe 0x03 0x00) 64],
          out := [],
          err := [Diag.shortWrite 64 65] }
    ∧ Syscall.close 3 ∉
        [Syscall.open "/dev/hidraw0" 3, Syscall.ioctl 3 0,
          Syscall.write 3 (request 0xfe 0x03 0x00) 64] := by
  refine ⟨?_, by decide⟩
  rw [main_with_path _ _ _ _ _ (by decide)]
  rw [bind_ok _ _ _ _ _ (try_open_device_accept (fun _ => Node.mk 3 0 0x1b1c 0x1c0b 0)
    "/dev/hidraw0" true (World.init ()) (by decide) (by decide) (by decide) (by decide))]
  rw [main_pass_eq _ _ _ (by decide)]
  simp only [proc_bind_assoc, dump_names]
  exact bind_exit _ _ _ _ _ (send_recv_cmd_short_write (scripted 64 64 []) 3 0xfe 0x03 0x00
    _ _ _ 64 () rfl (by decide))

/-- C13, amended.  (1) When `open` returned a descriptor and the matcher
rejects the device (the identity query fails, the vendor is not 0x1b1c, or the
product is not in the table), `try_open_device` returns -1 and its last system
call is the `close` of that descriptor.  (2) When the pass of `main` on a
matched descriptor returns, it returns 0 and its last system call is
`close(fd)`, the only `close` of the pass.  (3) When the pass ends the process
(a short write, a short read or an echo mismatch in some exchange), it does so
with `exit(1)` and without any `close`: the descriptor is left to process
termination. -/
theorem handle_release {σ : Type} (T : Transport σ) (e : Endian) (fs : String → Node)
    (name : String) (report_errors : Bool) (fd : Int) (w : World σ) :
    ((fs name).openRet ≠ -1 →
        ¬ ((fs name).ioctlRet = 0 ∧ (fs name).vendor = 0x1b1c
          ∧ (fs name).product ∈
            ([0x1c0a, 0x1c0b, 0x1c0c, 0x1c0d, 0x1c04, 0x1c05, 0x1c06, 0x1c07, 0x1c08] :
              List Int)) →
        ∃ w1 : World σ, try_open_device fs name report_errors w = Res.ok (-1) w1
          ∧ w1.trace = w.trace ++ [Syscall.open name (fs name).openRet,
              Syscall.ioctl (fs name).openRet (fs name).ioctlRet,
              Syscall.close (fs name).openRet])
      ∧ (fd ≠ -1 → ∀ (a : Int) (w1 : World σ), main_pass T e fd w = Res.ok a w1 →
          a = 0 ∧ ∃ evs : List Syscall, w1.trace = w.trace ++ evs ++ [Syscall.close fd]
            ∧ ∀ c ∈ evs, isClose c = false)
      ∧ (∀ (s : Int) (w1 : World σ), main_pass T e fd w = Res.exit s w1 →
          s = 1 ∧ ∃ evs : List Syscall, w1.trace = w.trace ++ evs
            ∧ ∀ c ∈ evs, isClose c = false) :=
  ⟨fun hopen hno => try_open_device_rejects fs name report_errors w hopen hno,
   fun hfd a w1 h => main_pass_normal T e fd hfd w a w1 h,
   fun s w1 h => main_pass_fatal T e fd w s w1 h⟩

theorem main_pass_short_write :
    main_pass (scripted 64 64 []) Endian.little 3 (World.init ()) =
      Res.exit 1
        { dev := (), trace := [Syscall.write 3 (request 0xfe 0x03 0x00) 64], out := [],
          err := [Diag.shortWrite 64 65] } := by
  rw [main_pass_eq _ _ _ (by decide)]
  simp only [proc_bind_assoc, dump_names]
  exact bind_exit _ _ _ _ _ (send_recv_cmd_short_write (scripted 64 64 []) 3 0xfe 0x03 0x00
    _ _ _ 64 () rfl (by decide))

/-- C13 amended, at concrete runs: a node with vendor 0x1234 opened as
descriptor 3 is rejected and closed; the pass on the example power supply
returns 0 with `close(3)` last; the pass on a device whose first `write`
returns 64 ends in `exit(1)` without a `close`. -/
theorem handle_release_witness :
    (∃ w1 : World Unit,
        try_open_device (fun _ => Node.mk 3 0 0x1234 0x1c0b 0) "/dev/hidraw0" true
            (World.init ()) = Res.ok (-1) w1
          ∧ w1.trace = [Syscall.open "/dev/hidraw0" 3, Syscall.ioctl 3 0, Syscall.close 3])
      ∧ (∃ w1 : World (List Byte),
          main_pass psu Endian.little 3 (World.init []) = Res.ok 0 w1
            ∧ ∃ evs : List Syscall, w1.trace = [] ++ evs ++ [Syscall.close 3]
              ∧ ∀ c ∈ evs, isClose c = false)
      ∧ main_pass (scripted 64 64 []) Endian.little 3 (World.init ()) =
          Res.exit 1
            { dev := (), trace := [Syscall.write 3 (request 0xfe 0x03 0x00) 64], out := [],
              err := [Diag.shortWrite 64 65] }
      ∧ ((1 : Int) = 1 ∧ ∃ evs : List Syscall,
          [Syscall.write 3 (request 0xfe 0x03 0x00) 64] = [] ++ evs
            ∧ ∀ c ∈ evs, isClose c = false) := by
  refine ⟨?_, ?_, main_pass_short_write, ?_⟩
  · exact (handle_release (scripted 64 64 []) Endian.little
      (fun _ => Node.mk 3 0 0x1234 0x1c0b 0) "/dev/hidraw0" true 3 (World.init ())).1
      (by decide) (by decide)
  · obtain ⟨w1, h1, _⟩ := main_pass_run psu answers_psu Endian.little 3 (by decide)
      (World.init [])
    exact ⟨w1, h1, ((handle_release psu Endian.little (fun _ => Node.mk 3 0 0x1234 0x1c0b 0)
      "/dev/hidraw0" true 3 (World.init [])).2.1 (by decide) 0 w1 h1).2⟩
  · exact (handle_release (scripted 64 64 []) Endian.little
      (fun _ => Node.mk 3 0 0x1234 0x1c0b 0) "/dev/hidraw0" true 3 (World.init ())).2.2
      1 _ main_pass_short_write

/-! ## The fan step -/

theorem mkv_D3E6 : mkv 0xD3E6 = 499 / 32 := by
  have hv : mkv_v 0xD3E6 = 998 := by decide
  have hp : mkv_p 0xD3E6 = -6 := by decide
  rw [mkv, hv, hp]; norm_num

theorem word16_little (r : List Byte) (v : Nat)
    (h2 : (r.getD 2 0).val = v % 256) (h3 : (r.getD 3 0).val = v / 256) :
    word16 Endian.little r = v :=
  objValue_little_word _ _ v h2 h3

/-- C14, the code on the example power supply, whose register 0x8d
(temperature 1) holds 0xF841 = 32.5 and whose register 0x90 (fan speed in the
register list of the source) holds 0xD3E6 = 15.59375.  `dump_fan` as compiled
with `PROMETHEUS` 1 issues the request (0x03, 0x8d, 0x00) and prints 32.5 as
`corsair_fan_rpm`: the temperature-1 answer.  The `#else` branch of the same
function reads register 0x90 and prints 15.59375. -/
theorem dump_fan_reads_temperature_register :
    (∃ w1 : World (List Byte), dump_fan psu Endian.little 3 (World.init []) = Res.ok () w1
        ∧ requests w1.trace = [(0x03, 0x8d, 0x00)]
        ∧ w1.out =
            [Out.line "# HELP corsair_fan_rpm Fan speed",
             Out.line "# TYPE corsair_fan_rpm gauge",
             Out.gauge "corsair_fan_rpm" (65 / 2)])
      ∧ (∃ w1 : World (List Byte),
          dump_fan_std psu Endian.little 3 (World.init []) = Res.ok () w1
            ∧ requests w1.trace = [(0x03, 0x90, 0x00)]
            ∧ w1.out = [Out.gauge "fan rpm" (499 / 32)])
      ∧ psuPayload 0x8d = [0x41, 0xF8] ∧ psuPayload 0x90 = [0xe6, 0xd3] := by
  refine ⟨?_, ?_, by decide, by decide⟩
  · have h : dump_fan psu Endian.little 3 (World.init []) =
        Res.ok ()
          { dev := request 0x03 0x8d 0x00,
            trace := [] ++ [Syscall.write 3 (request 0x03 0x8d 0x00) 65, Syscall.read 3 64 64],
            out := ([] ++ [Out.line "# HELP corsair_fan_rpm Fan speed",
              Out.line "# TYPE corsair_fan_rpm gauge"]) ++
              [Out.gauge "corsair_fan_rpm" (mkv 0xF841)],
            err := [] } := by
      unfold dump_fan
      rw [bind_ok _ _ _ _ () (emit_apply _ _)]
      exact print_prometheus_reg_little psu 3 0x8d _ _ (request 0x03 0x8d 0x00)
        (request 0x03 0x8d 0x00) (response 0x03 0x8d 0x41 0xF8) 0xF841 rfl rfl
        ⟨by decide, by decide, by decide, by decide, by decide⟩
    rw [mkv_F841] at h
    exact ⟨_, h, by decide, rfl⟩
  · have hx : Exch psu (World.init ([] : List Byte)).dev 0x03 0x90 0x00
        (response 0x03 0x90 0xe6 0xd3) (request 0x03 0x90 0x00) :=
      ⟨request 0x03 0x90 0x00, rfl, rfl, by decide, by decide, by decide⟩
    have h : dump_fan_std psu Endian.little 3 (World.init []) =
        Res.ok ()
          { dev := request 0x03 0x90 0x00,
            trace := [] ++ exchange 3 (0x03, 0x90, 0x00),
            out := [] ++ [Out.gauge "fan rpm" (mkv 0xD3E6)],
            err := [] } := by
      unfold dump_fan_std print_std_reg
      rw [bind_ok _ _ _ _ _ (read_reg16_exch psu Endian.little 3 0x90 0 _ _ _ hx),
        word16_little _ 0xD3E6 (by decide) (by decide)]
      rfl
    rw [mkv_D3E6] at h
    exact ⟨_, h, by decide, rfl⟩

/-! ## Parameter B -/

/-- C16: the outcome of an exchange does not depend on parameter B.  If the
device gives the exchange of (b0, b1, b2) and the exchange of (b0, b1, b2')
the same write count, read count and response bytes, then for every value `a`
of the caller's buffer one exchange returns `a` if and only if the other does:
they are accepted or rejected alike, with the same copied payload.  So a
response accepted for the select of one rail is accepted for the select of
any other rail. -/
theorem outcome_ignores_parameter_b {σ : Type} (T : Transport σ) (fd : Int)
    (b0 b1 b2 b2' : Byte) (buf : Option (List Byte)) (n : Nat) (w w' : World σ)
    (wret rret : Int) (data : List Byte) (s1 s2 s1' s2' : σ)
    (hw : T.write w.dev (request b0 b1 b2) = (wret, s1))
    (hr : T.read s1 64 = (rret, data, s2))
    (hw' : T.write w'.dev (request b0 b1 b2') = (wret, s1'))
    (hr' : T.read s1' 64 = (rret, data, s2')) (a : Option (List Byte)) :
    (∃ w1 : World σ, send_recv_cmd T fd b0 b1 b2 buf n w = Res.ok a w1)
      ↔ (∃ w1 : World σ, send_recv_cmd T fd b0 b1 b2' buf n w' = Res.ok a w1) := by
  by_cases h65 : wret = 65
  · subst h65
    by_cases h64 : rret = 64
    · subst h64
      by_cases hne : (stored 64 data).getD 0 0 ≠ b0 ∨ (stored 64 data).getD 1 0 ≠ b1
      · rw [send_recv_cmd_mismatch T fd b0 b1 b2 buf n w s1 s2 data hw hr hne,
          send_recv_cmd_mismatch T fd b0 b1 b2' buf n w' s1' s2' data hw' hr' hne]
        constructor <;> (rintro ⟨w1, h⟩; cases h)
      · have h0 := not_not.mp (not_or.mp hne).1
        have h1 := not_not.mp (not_or.mp hne).2
        rw [send_recv_cmd_ok T fd b0 b1 b2 buf n w s1 s2 data hw hr h0 h1,
          send_recv_cmd_ok T fd b0 b1 b2' buf n w' s1' s2' data hw' hr' h0 h1]
        constructor
        · rintro ⟨w1, h⟩
          cases h
          exact ⟨_, rfl⟩
        · rintro ⟨w1, h⟩
          cases h
          exact ⟨_, rfl⟩
    · rw [send_recv_cmd_short_read T fd b0 b1 b2 buf n w s1 s2 rret data hw hr h64,
        send_recv_cmd_short_read T fd b0 b1 b2' buf n w' s1' s2' rret data hw' hr' h64]
      constructor <;> (rintro ⟨w1, h⟩; cases h)
  · rw [send_recv_cmd_short_write T fd b0 b1 b2 buf n w wret s1 hw h65,
      send_recv_cmd_short_write T fd b0 b1 b2' buf n w' wret s1' hw' h65]
    constructor <;> (rintro ⟨w1, h⟩; cases h)

/-- C16 at a concrete response: the response 0x02 0x00 ... is accepted for
the select of rail 1, hence for the select of rail 2. -/
theorem outcome_ignores_parameter_b_witness :
    ∃ w1 : World Unit,
      send_recv_cmd (scripted 65 64 (response 0x02 0x00 0x00 0x00)) 3 0x02 0x00 2 none 0
        (World.init ()) = Res.ok none w1 :=
  (outcome_ignores_parameter_b (scripted 65 64 (response 0x02 0x00 0x00 0x00)) 3
      0x02 0x00 1 2 none 0 (World.init ()) (World.init ()) 65 64
      (response 0x02 0x00 0x00 0x00) () () () () rfl rfl rfl rfl none).mp
    ⟨_, send_recv_cmd_ok (scripted 65 64 (response 0x02 0x00 0x00 0x00)) 3 0x02 0x00 1
      none 0 (World.init ()) () () (response 0x02 0x00 0x00 0x00) rfl rfl
      (by decide) (by decide)⟩

/-! ## Per-rail values -/

theorem mkv_mod (v : Nat) : mkv (v % 65536) = mkv v := by
  simp [mkv, mkv_v, mkv_p, toUInt16]

theorem select_exch {σ : Type} (T : Transport σ) (fd : Int) (b2 : Byte) (w : World σ)
    (s2 : σ) (r : List Byte) (h : Exch T w.dev 0x02 0x00 b2 r s2) :
    send_recv_cmd T fd 0x02 0x00 b2 none 0 w =
      Res.ok none
        { dev := s2, trace := w.trace ++ exchange fd (0x02, 0x00, b2),
          out := w.out, err := w.err } := by
  obtain ⟨s1, hw, hr, hlen, h0, h1⟩ := h
  have hst : stored 64 r = r := stored_of_length 64 r hlen
  exact send_recv_cmd_ok T fd 0x02 0x00 b2 none 0 w s1 s2 r hw hr
    (by rw [hst]; exact h0) (by rw [hst]; exact h1)

theorem dump_powers_body_exch {σ : Type} (T : Transport σ) (e : Endian) (fd : Int)
    (osel : Nat) (st : Rails) (w : World σ) (rv ra rw : List Byte) (s2 : σ)
    (h : RailAnswers T w.dev (Fin.ofNat osel) rv ra rw s2) :
    dump_powers_body T e fd osel st w =
      Res.ok
        { val := word32 e rw,
          volts := st.volts.set osel (mkv (word32 e rv)),
          amps := st.amps.set osel (mkv (word32 e ra)),
          watts := st.watts.set osel (mkv (word32 e rw)) }
        { dev := s2,
          trace := w.trace ++ exchanges fd
            [(0x02, 0x00, Fin.ofNat osel), (0x03, 0x8b, 0x00), (0x03, 0x8c, 0x00),
             (0x03, 0x96, 0x00)],
          out := w.out, err := w.err } := by
  obtain ⟨r0, sa, sb, sc, hsel, hv, ha, hw⟩ := h
  unfold dump_powers_body
  refine (bind_ok _ _ _ _ _ (select_exch T fd _ w sa r0 hsel)).trans ?_
  refine (bind_ok _ _ _ _ _ (read_reg32_exch T e fd 0x8b _ _ sb rv ?_)).trans ?_
  · exact hv
  refine (bind_ok _ _ _ _ _ (read_reg32_exch T e fd 0x8c _ _ sc ra ?_)).trans ?_
  · exact ha
  refine (bind_ok _ _ _ _ _ (read_reg32_exch T e fd 0x96 _ _ s2 rw ?_)).trans ?_
  · exact hw
  simp [pure_apply, exchanges, exchange]

theorem print_loop_eq {σ : Type} (f : Nat → Out) :
    for_osel (fun osel (_ : Unit) => (emit [f osel] : Proc σ Unit)) 0 () =
      emit [f 0, f 1, f 2] := by
  funext w
  rw [for_osel_unroll]
  simp [bind, Proc.bind, emit, pure]

/-- C15: per-rail values use only the low half of the 32-bit word.  When the
device answers the twelve exchanges of `dump_powers` in full, with the
responses `v_i`, `a_i`, `p_i` to the reads of 0x8b, 0x8c, 0x96 for rail `i`,
`dump_powers` prints for each rail `mkv (x mod 2^16)`, where `x` is the 32-bit
word read from the response on the host; and two 32-bit words with equal low
16 bits decode to the same value. -/
theorem rail_values_low_half {σ : Type} (T : Transport σ) (e : Endian) (fd : Int)
    (w : World σ) (s1 s2 s3 : σ) (v0 a0 p0 v1 a1 p1 v2 a2 p2 : List Byte)
    (h0 : RailAnswers T w.dev 0 v0 a0 p0 s1) (h1 : RailAnswers T s1 1 v1 a1 p1 s2)
    (h2 : RailAnswers T s2 2 v2 a2 p2 s3) :
    (∃ w1 : World σ, dump_powers T e fd w = Res.ok () w1
        ∧ w1.out = w.out ++
            [Out.line "# HELP corsair_output_volts single output in volts",
             Out.line "# TYPE corsair_output_volts gauge",
             Out.rail "corsair_output_volts" 0 (mkv (word32 e v0 % 2 ^ 16)),
             Out.rail "corsair_output_volts" 1 (mkv (word32 e v1 % 2 ^ 16)),
             Out.rail "corsair_output_volts" 2 (mkv (word32 e v2 % 2 ^ 16)),
             Out.line "# HELP corsair_output_amperes single output in amperes",
             Out.line "# TYPE corsair_output_amperes gauge",
             Out.rail "corsair_output_amperes" 0 (mkv (word32 e a0 % 2 ^ 16)),
             Out.rail "corsair_output_amperes" 1 (mkv (word32 e a1 % 2 ^ 16)),
             Out.rail "corsair_output_amperes" 2 (mkv (word32 e a2 % 2 ^ 16)),
             Out.line "# HELP corsair_output_watts single output power in watts",
             Out.line "# TYPE corsair_output_watts gauge",
             Out.rail "corsair_output_watts" 0 (mkv (word32 e p0 % 2 ^ 16)),
             Out.rail "corsair_output_watts" 1 (mkv (word32 e p1 % 2 ^ 16)),
             Out.rail "corsair_output_watts" 2 (mkv (word32 e p2 % 2 ^ 16))])
      ∧ ∀ x y : Nat, x % 2 ^ 16 = y % 2 ^ 16 → mkv x = mkv y := by
  constructor
  · have hloop : for_osel (dump_powers_body T e fd) 0
          { val := 0, volts := [0, 0, 0], amps := [0, 0, 0], watts := [0, 0, 0] } w =
        Res.ok
          { val := word32 e p2,
            volts := [mkv (word32 e v0), mkv (word32 e v1), mkv (word32 e v2)],
            amps := [mkv (word32 e a0), mkv (word32 e a1), mkv (word32 e a2)],
            watts := [mkv (word32 e p0), mkv (word32 e p1), mkv (word32 e p2)] }
          { dev := s3, trace := w.trace ++ exchanges fd rail_requests,
            out := w.out, err := w.err } := by
      rw [for_osel_unroll]
      refine (bind_ok _ _ _ _ _ (dump_powers_body_exch T e fd 0 _ w v0 a0 p0 s1 h0)).trans ?_
      refine (bind_ok _ _ _ _ _ (dump_powers_body_exch T e fd 1 _ _ v1 a1 p1 s2 ?_)).trans ?_
      · exact h1
      refine (bind_ok _ _ _ _ _ (dump_powers_body_exch T e fd 2 _ _ v2 a2 p2 s3 ?_)).trans ?_
      · exact h2
      simp [pure_apply, exchanges, exchange, rail_requests]
      exact ⟨rfl, rfl, rfl⟩
    unfold dump_powers
    rw [bind_ok _ _ _ _ _ hloop]
    simp only [print_loop_eq]
    exact ⟨_, rfl, by simp [emit, mkv_mod]⟩
  · intro x y hxy
    have h : (2 : Nat) ^ 16 = 65536 := by norm_num
    rw [h] at hxy
    rw [← mkv_mod x, ← mkv_mod y, hxy]

theorem exch_psu_rail (s : List Byte) (reg : Byte)
    (hreg : psuPayload reg = [0x1a, 0xd2, 0x34, 0x12]) :
    Exch psu s 0x03 reg 0x00 (railResponse reg) (request 0x03 reg 0x00) := by
  refine ⟨request 0x03 reg 0x00, rfl, ?_, by simp [railResponse], by simp [railResponse],
    by simp [railResponse]⟩
  simp [psu, request_eq, hreg, stored, railResponse]

theorem rail_answers_psu (s : List Byte) (osel : Byte) :
    RailAnswers psu s osel (railResponse 0x8b) (railResponse 0x8c) (railResponse 0x96)
      (request 0x03 0x96 0x00) := by
  obtain ⟨s1, s2, r, hw, hr, hlen, h0, h1⟩ := answers_psu s 0x02 0x00 osel
  exact ⟨r, s2, _, _, ⟨s1, hw, hr, hlen, h0, h1⟩, exch_psu_rail _ 0x8b (by decide),
    exch_psu_rail _ 0x8c (by decide), exch_psu_rail _ 0x96 (by decide)⟩

/-- C15 on the example power supply, whose rail registers hold the 32-bit
word 0x1234D21A on a little-endian host: every rail value printed is
`mkv (0x1234D21A mod 2^16) = mkv 0xD21A`. -/
theorem rail_values_low_half_witness :
    word32 Endian.little (railResponse 0x8b) = 0x1234D21A
      ∧ 0x1234D21A % 2 ^ 16 = 0xD21A
      ∧ ∃ w1 : World (List Byte), dump_powers psu Endian.little 3 (World.init []) = Res.ok () w1
        ∧ w1.out = [] ++
            [Out.line "# HELP corsair_output_volts single output in volts",
             Out.line "# TYPE corsair_output_volts gauge",
             Out.rail "corsair_output_volts" 0
               (mkv (word32 Endian.little (railResponse 0x8b) % 2 ^ 16)),
             Out.rail "corsair_output_volts" 1
               (mkv (word32 Endian.little (railResponse 0x8b) % 2 ^ 16)),
             Out.rail "corsair_output_volts" 2
               (mkv (word32 Endian.little (railResponse 0x8b) % 2 ^ 16)),
             Out.line "# HELP corsair_output_amperes single output in amperes",
             Out.line "# TYPE corsair_output_amperes gauge",
             Out.rail "corsair_output_amperes" 0
               (mkv (word32 Endian.little (railResponse 0x8c) % 2 ^ 16)),
             Out.rail "corsair_output_amperes" 1
               (mkv (word32 Endian.little (railResponse 0x8c) % 2 ^ 16)),
             Out.rail "corsair_output_amperes" 2
               (mkv (word32 Endian.little (railResponse 0x8c) % 2 ^ 16)),
             Out.line "# HELP corsair_output_watts single output power in watts",
             Out.line "# TYPE corsair_output_watts gauge",
             Out.rail "corsair_output_watts" 0
               (mkv (word32 Endian.little (railResponse 0x96) % 2 ^ 16)),
             Out.rail "corsair_output_watts" 1
               (mkv (word32 Endian.little (railResponse 0x96) % 2 ^ 16)),
             Out.rail "corsair_output_watts" 2
               (mkv (word32 Endian.little (railResponse 0x96) % 2 ^ 16))] :=
  ⟨by decide, by decide,
   (rail_values_low_half psu Endian.little 3 (World.init []) _ _ _
      _ _ _ _ _ _ _ _ _
      (rail_answers_psu _ 0) (rail_answers_psu _ 1) (rail_answers_psu _ 2)).1⟩

/-! ## Identity strings -/

theorem names_payload (r : List Byte) :
    payload (some (List.replicate 64 0)) (64 - 1) r = some ((r.drop 2).take 62 ++ [0, 0]) := by
  simp [payload, memcpy, List.replicate]

theorem cstr_length_le (p t : List Byte) : (cstr (p ++ 0 :: t)).length ≤ p.length := by
  induction p with
  | nil => simp [cstr]
  | cons a p ih =>
    unfold cstr at ih ⊢
    by_cases ha : a = 0
    · simp [ha]
    · simpa [List.takeWhile_cons, ha] using ih

theorem names_buffer (r : List Byte) (hlen : r.length = 64) :
    ((r.drop 2).take 62 ++ [0, 0]).length = 64
      ∧ ((r.drop 2).take 62 ++ [0, 0])[62]? = some 0
      ∧ ((r.drop 2).take 62 ++ [0, 0])[63]? = some 0
      ∧ (cstr ((r.drop 2).take 62 ++ [0, 0])).length ≤ 62
      ∧ ∀ i, i < 62 → ((r.drop 2).take 62 ++ [0, 0])[i]? = r[2 + i]? := by
  have hl : ((r.drop 2).take 62).length = 62 := by simp; omega
  refine ⟨by simp; omega, ?_, ?_, ?_, ?_⟩
  · rw [List.getElem?_append_right (by omega), hl]; rfl
  · rw [List.getElem?_append_right (by omega), hl]; rfl
  · have h := cstr_length_le ((r.drop 2).take 62) [0]
    rw [hl] at h
    exact h
  · intro i hi
    rw [List.getElem?_append_left (by omega), List.getElem?_take_of_lt hi, List.getElem?_drop]

theorem names_read {σ : Type} (T : Transport σ) (fd : Int) (b0 b1 : Byte) (w : World σ)
    (s2 : σ) (r : List Byte) (h : Exch T w.dev b0 b1 0x00 r s2) :
    send_recv_cmd T fd b0 b1 0x00 (some (List.replicate 64 0)) (64 - 1) w =
      Res.ok (some ((r.drop 2).take 62 ++ [0, 0]))
        { dev := s2, trace := w.trace ++ exchange fd (b0, b1, 0x00),
          out := w.out, err := w.err } := by
  obtain ⟨s1, hw, hr, hlen, h0, h1⟩ := h
  have hst : stored 64 r = r := stored_of_length 64 r hlen
  have hok := send_recv_cmd_ok T fd b0 b1 0x00 (some (List.replicate 64 0)) (64 - 1) w s1 s2 r
    hw hr (by rw [hst]; exact h0) (by rw [hst]; exact h1)
  rw [hst, names_payload r] at hok
  exact hok

/-- C17: identity strings are always NUL-terminated.  When the device answers
the three exchanges of `dump_names` in full with the responses `r1`, `r2`,
`r3`, the three zeroed 64-byte buffers are, after their reads (each asks for
63 bytes), `name`, `vendor`, `product`: each still has 64 bytes, holds
response bytes 2..63 in its bytes 0..61, and has bytes 62 and 63 equal to 0;
`dump_names` prints the bytes of each before its first 0, at most 62 of them,
whatever the responses hold. -/
theorem names_nul_terminated {σ : Type} (T : Transport σ) (fd : Int) (w : World σ)
    (r1 r2 r3 : List Byte) (s1 s2 s3 : σ)
    (h1 : Exch T w.dev 0xfe 0x03 0x00 r1 s1) (h2 : Exch T s1 0x03 0x99 0x00 r2 s2)
    (h3 : Exch T s2 0x03 0x9a 0x00 r3 s3) :
    ∃ (name vendor product : List Byte) (wa wb wc : World σ),
      send_recv_cmd T fd 0xfe 0x03 0x00 (some (List.replicate 64 0)) (64 - 1) w =
          Res.ok (some name) wa
        ∧ read_reg T fd 0x99 (some (List.replicate 64 0)) (64 - 1) wa = Res.ok (some vendor) wb
        ∧ read_reg T fd 0x9a (some (List.replicate 64 0)) (64 - 1) wb = Res.ok (some product) wc
        ∧ dump_names T fd w =
            Res.ok ()
              { wc with out := wc.out ++
                  [Out.line "# HELP corsair_hardware_info Hardware info",
                   Out.line "# TYPE corsair_hardware_info gauge",
                   Out.info (cstr name) (cstr vendor) (cstr product)] }
        ∧ wc.out = w.out
        ∧ (∀ b ∈ [(name, r1), (vendor, r2), (product, r3)],
            b.1.length = 64 ∧ b.1[62]? = some 0 ∧ b.1[63]? = some 0
              ∧ (cstr b.1).length ≤ 62
              ∧ ∀ i, i < 62 → b.1[i]? = b.2[2 + i]?) := by
  have e1 := names_read T fd 0xfe 0x03 w s1 r1 h1
  have e2 : read_reg T fd 0x99 (some (List.replicate 64 0)) (64 - 1)
        ⟨s1, w.trace ++ exchange fd (0xfe, 0x03, 0x00), w.out, w.err⟩ =
      Res.ok (some ((r2.drop 2).take 62 ++ [0, 0]))
        ⟨s2, w.trace ++ exchange fd (0xfe, 0x03, 0x00) ++ exchange fd (0x03, 0x99, 0x00),
          w.out, w.err⟩ :=
    names_read T fd 0x03 0x99 ⟨s1, _, _, _⟩ s2 r2 h2
  have e3 : read_reg T fd 0x9a (some (List.replicate 64 0)) (64 - 1)
        ⟨s2, w.trace ++ exchange fd (0xfe, 0x03, 0x00) ++ exchange fd (0x03, 0x99, 0x00),
          w.out, w.err⟩ =
      Res.ok (some ((r3.drop 2).take 62 ++ [0, 0]))
        ⟨s3, w.trace ++ exchange fd (0xfe, 0x03, 0x00) ++ exchange fd (0x03, 0x99, 0x00)
          ++ exchange fd (0x03, 0x9a, 0x00), w.out, w.err⟩ :=
    names_read T fd 0x03 0x9a ⟨s2, _, _, _⟩ s3 r3 h3
  refine ⟨_, _, _, _, _, _, e1, e2, e3, ?_, rfl, ?_⟩
  · unfold dump_names
    rw [bind_ok _ _ _ _ _ e1, bind_ok _ _ _ _ _ e2, bind_ok _ _ _ _ _ e3]
    rfl
  · intro b hb
    simp only [List.mem_cons, List.mem_singleton, List.not_mem_nil, or_false] at hb
    rcases hb with h | h | h
    · subst h; exact names_buffer r1 h1.choose_spec.2.2.1
    · subst h; exact names_buffer r2 h2.choose_spec.2.2.1
    · subst h; exact names_buffer r3 h3.choose_spec.2.2.1

theorem exch_chatty (s : List Byte) (b0 b1 b2 : Byte) :
    Exch chatty s b0 b1 b2 (b0 :: b1 :: List.replicate 62 0x41) (request b0 b1 b2) := by
  refine ⟨request b0 b1 b2, rfl, ?_, by simp, by simp, by simp⟩
  simp [chatty, request_eq]

/-- C17 on a device whose 62 payload bytes are all 0x41: each string printed
is those 62 bytes, and no more. -/
theorem names_nul_terminated_witness :
    ∃ w1 : World (List Byte), dump_names chatty 3 (World.init []) = Res.ok () w1
      ∧ w1.out =
          [Out.line "# HELP corsair_hardware_info Hardware info",
           Out.line "# TYPE corsair_hardware_info gauge",
           Out.info (List.replicate 62 0x41) (List.replicate 62 0x41)
             (List.replicate 62 0x41)] := by
  obtain ⟨name, vendor, product, wa, wb, wc, e1, e2, e3, hd, hout, _⟩ :=
    names_nul_terminated chatty 3 (World.init []) _ _ _ _ _ _
      (exch_chatty _ 0xfe 0x03 0x00) (exch_chatty _ 0x03 0x99 0x00)
      (exch_chatty _ 0x03 0x9a 0x00)
  rw [names_read chatty 3 0xfe 0x03 _ _ _ (exch_chatty _ 0xfe 0x03 0x00)] at e1
  cases e1
  rw [read_reg, names_read chatty 3 0x03 0x99 _ _ _ (exch_chatty _ 0x03 0x99 0x00)] at e2
  cases e2
  rw [read_reg, names_read chatty 3 0x03 0x9a _ _ _ (exch_chatty _ 0x03 0x9a 0x00)] at e3
  cases e3
  refine ⟨_, hd, ?_⟩
  simp only [World.init, List.nil_append]
  decide

/-! ## The temperature step on both host byte orders -/

theorem mkv_41F8 : mkv 0x41F8 = 129024 := by
  have hv : mkv_v 0x41F8 = 504 := by decide
  have hp : mkv_p 0x41F8 = 8 := by decide
  rw [mkv, hv, hp]; norm_num

theorem print_prometheus_reg_exch {σ : Type} (T : Transport σ) (e : Endian) (fd : Int)
    (reg : Byte) (label : String) (w : World σ) (s2 : σ) (r : List Byte)
    (h : Exch T w.dev 0x03 reg 0x00 r s2) :
    print_prometheus_reg T e fd reg label w =
      Res.ok ()
        { dev := s2, trace := w.trace ++ exchange fd (0x03, reg, 0x00),
          out := w.out ++ [Out.gauge label (mkv (word16 e r))], err := w.err } := by
  unfold print_prometheus_reg
  rw [bind_ok _ _ _ _ _ (read_reg16_exch T e fd reg 0 w s2 r h)]
  rfl

theorem exch_psu_temp1 (s : List Byte) :
    Exch psu s 0x03 0x8d 0x00 (response 0x03 0x8d 0x41 0xF8) (request 0x03 0x8d 0x00) :=
  ⟨request 0x03 0x8d 0x00, rfl, rfl, by decide, by decide, by decide⟩

theorem exch_psu_temp2 (s : List Byte) :
    Exch psu s 0x03 0x8e 0x00 (response 0x03 0x8e 0x2c 0xf1) (request 0x03 0x8e 0x00) :=
  ⟨request 0x03 0x8e 0x00, rfl, rfl, by decide, by decide, by decide⟩

/-- C10, the code at a concrete response.  The device answers the request
(0x03, 0x8d, 0x00) with a valid 64-byte response whose payload bytes 2 and 3
hold the word 0xF841 low byte first (0x41, 0xF8), the encoding of 32.5.  On a
big-endian host `dump_temps` prints 129024 = `mkv 0x41F8` as the value of
temperature sensor 1, on the example power supply and also on a device whose
answer to the later request for 0x8e is rejected; on a little-endian host it
prints 32.5 = `mkv 0xF841`. -/
theorem temperature_depends_on_host_byte_order :
    (∃ w1 : World (List Byte), dump_temps psu Endian.big 3 (World.init []) = Res.ok () w1
        ∧ w1.out =
            [Out.line "# HELP corsair_temperature_celsius Temperature in seconds",
             Out.line "# TYPE corsair_temperature_celsius gauge",
             Out.gauge "corsair_temperature_celsius\x7bsensor=\"1\"\x7d" 129024,
             Out.gauge "corsair_temperature_celsius\x7bsensor=\"2\"\x7d" (mkv 0x2CF1)])
      ∧ dump_temps (scripted 65 64 (response 0x03 0x8d 0x41 0xF8)) Endian.big 3
            (World.init ()) =
          Res.exit 1
            { dev := (),
              trace := exchange 3 (0x03, 0x8d, 0x00) ++
                [Syscall.write 3 (request 0x03 0x8e 0x00) 65, Syscall.read 3 64 64],
              out :=
                [Out.line "# HELP corsair_temperature_celsius Temperature in seconds",
                 Out.line "# TYPE corsair_temperature_celsius gauge",
                 Out.gauge "corsair_temperature_celsius\x7bsensor=\"1\"\x7d" 129024,
                 Out.hexdump (response 0x03 0x8d 0x41 0xF8)],
              err := [Diag.unexpectedResponse 0x03 0x8d 0x03 0x8e 0x00] }
      ∧ (∃ w1 : World (List Byte),
          dump_temps psu Endian.little 3 (World.init []) = Res.ok () w1
            ∧ w1.out =
                [Out.line "# HELP corsair_temperature_celsius Temperature in seconds",
                 Out.line "# TYPE corsair_temperature_celsius gauge",
                 Out.gauge "corsair_temperature_celsius\x7bsensor=\"1\"\x7d" (65 / 2),
                 Out.gauge "corsair_temperature_celsius\x7bsensor=\"2\"\x7d" (mkv 0xF12C)])
      ∧ (response 0x03 0x8d 0x41 0xF8).getD 2 0 = 0x41
      ∧ (response 0x03 0x8d 0x41 0xF8).getD 3 0 = 0xF8 := by
  refine ⟨?_, ?_, temperature_end_to_end_witness, by decide, by decide⟩
  · have h : dump_temps psu Endian.big 3 (World.init []) =
        Res.ok ()
          { dev := request 0x03 0x8e 0x00,
            trace := ([] ++ exchange 3 (0x03, 0x8d, 0x00)) ++ exchange 3 (0x03, 0x8e, 0x00),
            out := (([] ++
              [Out.line "# HELP corsair_temperature_celsius Temperature in seconds",
               Out.line "# TYPE corsair_temperature_celsius gauge"]) ++
              [Out.gauge "corsair_temperature_celsius\x7bsensor=\"1\"\x7d" (mkv 0x41F8)]) ++
              [Out.gauge "corsair_temperature_celsius\x7bsensor=\"2\"\x7d" (mkv 0x2CF1)],
            err := [] } := by
      unfold dump_temps
      rw [bind_ok _ _ _ _ () (emit_apply _ _)]
      refine (bind_ok _ _ _ _ _
        (print_prometheus_reg_exch psu Endian.big 3 0x8d _ _ (request 0x03 0x8d 0x00)
          (response 0x03 0x8d 0x41 0xF8) ?_)).trans ?_
      · exact exch_psu_temp1 _
      · exact print_prometheus_reg_exch psu Endian.big 3 0x8e _ _ (request 0x03 0x8e 0x00)
          (response 0x03 0x8e 0x2c 0xf1) (exch_psu_temp2 _)
    rw [mkv_41F8] at h
    exact ⟨_, h, rfl⟩
  · have hx : Exch (scripted 65 64 (response 0x03 0x8d 0x41 0xF8)) () 0x03 0x8d 0x00
        (response 0x03 0x8d 0x41 0xF8) () :=
      exch_scripted 0x03 0x8d 0x00 _ (by decide) (by decide) (by decide)
    unfold dump_temps
    rw [bind_ok _ _ _ _ () (emit_apply _ _)]
    refine (bind_ok _ _ _ _ _
      (print_prometheus_reg_exch _ Endian.big 3 0x8d _ _ ()
        (response 0x03 0x8d 0x41 0xF8) ?_)).trans ?_
    · exact hx
    · unfold print_prometheus_reg read_reg16
      refine (bind_exit _ _ _ _ _ (bind_exit _ _ _ _ _
        (send_recv_cmd_mismatch (scripted 65 64 (response 0x03 0x8d 0x41 0xF8)) 3
          0x03 0x8e 0x00 _ _ _ () () (response 0x03 0x8d 0x41 0xF8) rfl rfl
          (by decide)))).trans ?_
      rw [show word16 Endian.big (response 0x03 0x8d 0x41 0xF8) = 0x41F8 by decide, mkv_41F8]
      rfl

end Corsairmi
